import Mathlib

/-!
# agent-portal: the chat route (`src/server/routes/chat.js`)

A shallow embedding of the message pipeline of the chat route
(`processMessage`, its two handlers, the date helpers and
`parseCustomDateRange`) together with the parts of the JavaScript runtime
they call (`String.prototype.includes/split/trim/match/toLowerCase` and the
`Date` arithmetic of ECMA-262 §21.4.1).

Conventions of the embedding

* a JavaScript string is a `List Char`;
* a time value is an `Int` number of milliseconds since the epoch, an
  invalid `Date` (`NaN`) is `none`;
* the process time zone is a fixed offset `tza` in milliseconds
  (`LocalTime t = t + tza`), the clock reading is the parameter `now`;
* a store call is not performed by the model: a handler returns an
  `Outcome` that either carries the finished response, or names the read
  that was issued together with the callback that turns the result of the
  read into the response.
-/

namespace AgentPortal

/-! ## Strings of the runtime -/

/-- `String.prototype.includes` for a search string: `pat` occurs in `s`
at some position. -/
def includes : List Char → List Char → Bool
  | [], pat => pat.isEmpty
  | c :: cs, pat => pat.isPrefixOf (c :: cs) || includes cs pat

/-- `String.prototype.toLowerCase` on one character of Basic Latin (ASCII):
the letters `A`–`Z` go to `a`–`z` and every other ASCII character is kept.
A character outside ASCII, which the runtime maps by the Unicode case
tables, is kept as it is here. -/
def toLowerChar (c : Char) : Char :=
  if 65 ≤ c.toNat ∧ c.toNat ≤ 90 then Char.ofNat (c.toNat + 32) else c

/-- `String.prototype.toLowerCase` of a string of ASCII characters,
character by character. For a string with a character outside ASCII the
runtime may give another string (the Kelvin sign goes to `k`, `É` to `é`);
such strings are outside this function: see `isAscii`. -/
def toLowerCase (s : List Char) : List Char :=
  s.map toLowerChar

/-- Every character of the string is in ASCII (below U+0080): the strings
on which `toLowerCase` is `String.prototype.toLowerCase`. -/
def isAscii (s : List Char) : Bool :=
  s.all (fun c => c.toNat < 128)

/-- Worker of `split`: `skip` counts the characters of a matched separator
still to be passed over, `cur` is the current piece in reverse. -/
def splitGo (sep : List Char) : Nat → List Char → List Char → List (List Char)
  | _, cur, [] => [cur.reverse]
  | k + 1, cur, _ :: cs => splitGo sep k cur cs
  | 0, cur, c :: cs =>
    if sep.isPrefixOf (c :: cs) then cur.reverse :: splitGo sep (sep.length - 1) [] cs
    else splitGo sep 0 (c :: cur) cs

/-- `String.prototype.split` with a non-empty separator string: the
pieces between successive occurrences of `sep`, found left to right. -/
def split (s sep : List Char) : List (List Char) :=
  splitGo sep 0 [] s

/-- White space and line terminators of ECMA-262 (`TrimString`). -/
def isWhiteSpace (c : Char) : Bool :=
  let n := c.toNat
  n = 0x09 || n = 0x0A || n = 0x0B || n = 0x0C || n = 0x0D || n = 0x20 ||
  n = 0xA0 || n = 0x1680 || (0x2000 ≤ n && n ≤ 0x200A) || n = 0x2028 ||
  n = 0x2029 || n = 0x202F || n = 0x205F || n = 0x3000 || n = 0xFEFF

/-- `String.prototype.trim`. -/
def trim (s : List Char) : List Char :=
  ((s.dropWhile isWhiteSpace).reverse.dropWhile isWhiteSpace).reverse

/-- The class `\d` of a regular expression. -/
def isDigit (c : Char) : Bool :=
  48 ≤ c.toNat && c.toNat ≤ 57

/-- The pattern `\d{4}-\d{2}-\d{2}` matches at the head of `s`. -/
def matchesDateAt : List Char → Bool
  | a :: b :: c :: d :: h1 :: e :: f :: h2 :: g :: h :: _ =>
    isDigit a && isDigit b && isDigit c && isDigit d && h1 == '-' &&
    isDigit e && isDigit f && h2 == '-' && isDigit g && isDigit h
  | _ => false

/-- Worker of `matchDates`: the scan of a global regular expression;
after a match the next attempt starts behind it (`skip` characters on). -/
def matchDatesGo : Nat → List Char → List (List Char)
  | _, [] => []
  | k + 1, _ :: cs => matchDatesGo k cs
  | 0, c :: cs =>
    if matchesDateAt (c :: cs) then (c :: cs).take 10 :: matchDatesGo 9 cs
    else matchDatesGo 0 cs

/-- `message.match(/(\d{4}-\d{2}-\d{2})/g)`: all matches in order of
appearance, `none` (JavaScript `null`) when there is no match. -/
def matchDates (s : List Char) : Option (List (List Char)) :=
  match matchDatesGo 0 s with
  | [] => none
  | ms => some ms

/-- Decimal digits of a natural number (`Number::toString` on a
non-negative integer). -/
def natToString (n : Nat) : List Char :=
  Nat.toDigits 10 n

/-- The last `w` decimal digits of `n`, most significant first: `n` as a
field of `w` decimal digits (zero-padded) when `n < 10 ^ w`. -/
def fixedDigits : Nat → Nat → List Char
  | 0, _ => []
  | w + 1, n => fixedDigits w (n / 10) ++ [Nat.digitChar (n % 10)]

/-! ## Time values and dates of the runtime (ECMA-262 §21.4.1) -/

/-- Milliseconds per day. -/
def msPerDay : Int := 86400000

/-- `Day(t)`: the day number of a time value. -/
def Day (t : Int) : Int := t / msPerDay

/-- `TimeWithinDay(t)`. -/
def TimeWithinDay (t : Int) : Int := t % msPerDay

/-- `DaysInYear(y)`: the Gregorian leap-year rule. -/
def DaysInYear (y : Int) : Int :=
  if y % 4 ≠ 0 then 365
  else if y % 100 ≠ 0 then 366
  else if y % 400 ≠ 0 then 365
  else 366

/-- `DayFromYear(y)`: the day number of the first day of year `y`. -/
def DayFromYear (y : Int) : Int :=
  365 * (y - 1970) + (y - 1969) / 4 - (y - 1901) / 100 + (y - 1601) / 400

/-- The year of a day number: the largest `y` with `DayFromYear y ≤ d`,
computed from an estimate that is corrected by at most one year. -/
def yearFromDay (d : Int) : Int :=
  let y := 1970 + (400 * d) / 146097
  if d < DayFromYear y then y - 1
  else if DayFromYear (y + 1) ≤ d then y + 1
  else y

/-- `YearFromTime(t)`. -/
def YearFromTime (t : Int) : Int := yearFromDay (Day t)

/-- The leap indicator of year `y`: 1 when `DaysInYear y` is 366, else 0. -/
def leapOf (y : Int) : Int :=
  if DaysInYear y = 366 then 1 else 0

/-- `InLeapYear(t)`: 1 in a leap year, 0 otherwise. -/
def InLeapYear (t : Int) : Int :=
  leapOf (YearFromTime t)

/-- `DayWithinYear(t)`. -/
def DayWithinYear (t : Int) : Int := Day t - DayFromYear (YearFromTime t)

/-- The month table of `MonthFromTime`: the month (0 to 11) of day `d`
within a year, `l` being 1 in a leap year. -/
def monthFromDayWithinYear (d l : Int) : Int :=
  if d < 31 then 0
  else if d < 59 + l then 1
  else if d < 90 + l then 2
  else if d < 120 + l then 3
  else if d < 151 + l then 4
  else if d < 181 + l then 5
  else if d < 212 + l then 6
  else if d < 243 + l then 7
  else if d < 273 + l then 8
  else if d < 304 + l then 9
  else if d < 334 + l then 10
  else 11

/-- `MonthFromTime(t)`: 0 for January to 11 for December. -/
def MonthFromTime (t : Int) : Int :=
  monthFromDayWithinYear (DayWithinYear t) (InLeapYear t)

/-- The date table of `DateFromTime`: the day of month `m` that is day
`d` within the year. -/
def dateFromDayWithinYear (m d l : Int) : Int :=
  if m = 0 then d + 1
  else if m = 1 then d - 30
  else if m = 2 then d - 58 - l
  else if m = 3 then d - 89 - l
  else if m = 4 then d - 119 - l
  else if m = 5 then d - 150 - l
  else if m = 6 then d - 180 - l
  else if m = 7 then d - 211 - l
  else if m = 8 then d - 242 - l
  else if m = 9 then d - 272 - l
  else if m = 10 then d - 303 - l
  else d - 333 - l

/-- `DateFromTime(t)`: the day of the month, from 1. -/
def DateFromTime (t : Int) : Int :=
  dateFromDayWithinYear (MonthFromTime t) (DayWithinYear t) (InLeapYear t)

/-- `WeekDay(t)`: 0 for Sunday to 6 for Saturday. -/
def WeekDay (t : Int) : Int := (Day t + 4) % 7

/-- `HourFromTime(t)`. -/
def HourFromTime (t : Int) : Int := (t / 3600000) % 24

/-- `MinFromTime(t)`. -/
def MinFromTime (t : Int) : Int := (t / 60000) % 60

/-- `SecFromTime(t)`. -/
def SecFromTime (t : Int) : Int := (t / 1000) % 60

/-- `msFromTime(t)`. -/
def msFromTime (t : Int) : Int := t % 1000

/-- `LocalTime(t)` for a process whose zone is the fixed offset `tza`. -/
def LocalTime (tza t : Int) : Int := t + tza

/-- `UTC(t)`, the inverse of `LocalTime`. -/
def UTC (tza t : Int) : Int := t - tza

/-- `MakeTime(hour, min, sec, ms)`. -/
def MakeTime (hour min sec ms : Int) : Int :=
  hour * 3600000 + min * 60000 + sec * 1000 + ms

/-- Days of the year before the first day of month `mn` (0 to 11), `l`
being 1 in a leap year. -/
def daysBeforeMonth (mn l : Int) : Int :=
  if mn = 0 then 0
  else if mn = 1 then 31
  else if mn = 2 then 59 + l
  else if mn = 3 then 90 + l
  else if mn = 4 then 120 + l
  else if mn = 5 then 151 + l
  else if mn = 6 then 181 + l
  else if mn = 7 then 212 + l
  else if mn = 8 then 243 + l
  else if mn = 9 then 273 + l
  else if mn = 10 then 304 + l
  else 334 + l

/-- `MakeDay(year, month, date)`: the day number of day 1 of month
`month mod 12` of year `year + floor(month / 12)`, plus `date - 1`. -/
def MakeDay (year month date : Int) : Int :=
  let ym := year + month / 12
  let mn := month % 12
  DayFromYear ym + daysBeforeMonth mn (leapOf ym) + date - 1

/-- `MakeDate(day, time)`. -/
def MakeDate (day time : Int) : Int := day * msPerDay + time

/-- `TimeClip(t)`: `none` (`NaN`) beyond 8.64e15 ms from the epoch. -/
def TimeClip (t : Int) : Option Int :=
  if t.natAbs > 8640000000000000 then none else some t

/-- `Date.prototype.getFullYear`. -/
def getFullYear (tza tv : Int) : Int := YearFromTime (LocalTime tza tv)

/-- `Date.prototype.getMonth`. -/
def getMonth (tza tv : Int) : Int := MonthFromTime (LocalTime tza tv)

/-- `Date.prototype.getDate`. -/
def getDate (tza tv : Int) : Int := DateFromTime (LocalTime tza tv)

/-- `Date.prototype.getDay`. -/
def getDay (tza tv : Int) : Int := WeekDay (LocalTime tza tv)

/-- `Date.prototype.setDate(dt)`: the new time value. -/
def setDate (tza tv dt : Int) : Option Int :=
  let t := LocalTime tza tv
  TimeClip (UTC tza (MakeDate (MakeDay (YearFromTime t) (MonthFromTime t) dt) (TimeWithinDay t)))

/-- `Date.prototype.setHours(hour, min, sec, ms)`: the new time value. -/
def setHours (tza tv hour min sec ms : Int) : Option Int :=
  let t := LocalTime tza tv
  TimeClip (UTC tza (MakeDate (Day t) (MakeTime hour min sec ms)))

/-- `new Date(year, month, date)`: local midnight of that day; a year
from 0 to 99 stands for 1900 + year. -/
def newDate (tza year month date : Int) : Option Int :=
  let yr := if 0 ≤ year ∧ year ≤ 99 then 1900 + year else year
  TimeClip (UTC tza (MakeDate (MakeDay yr month date) (MakeTime 0 0 0 0)))

/-- The year of the date-time string format: four decimal digits from 0
to 9999, otherwise the expanded year, a sign and six digits. -/
def isoYear (y : Int) : List Char :=
  if 0 ≤ y ∧ y ≤ 9999 then fixedDigits 4 y.toNat
  else (if y < 0 then '-' else '+') :: fixedDigits 6 y.natAbs

/-- `Date.prototype.toISOString` of a valid time value (UTC fields). -/
def toISOString (tv : Int) : List Char :=
  isoYear (YearFromTime tv) ++ '-' :: fixedDigits 2 (MonthFromTime tv + 1).toNat ++
  '-' :: fixedDigits 2 (DateFromTime tv).toNat ++ 'T' :: fixedDigits 2 (HourFromTime tv).toNat ++
  ':' :: fixedDigits 2 (MinFromTime tv).toNat ++ ':' :: fixedDigits 2 (SecFromTime tv).toNat ++
  '.' :: fixedDigits 3 (msFromTime tv).toNat ++ ['Z']

/-- The expression `d.toISOString().split('T')[0]` of the date helpers. -/
def isoDate (tv : Int) : List Char :=
  (split (toISOString tv) ['T']).headD []

/-- The object `{ start, end }` returned by the date helpers. -/
structure DateRange where
  start : List Char
  «end» : List Char
  deriving DecidableEq, Repr

/-- `getThisWeekDates()` at clock reading `now`; `none` when a `Date` is
invalid and `toISOString` throws a `RangeError`. -/
def getThisWeekDates (tza now : Int) : Option DateRange := do
  let start ← setDate tza now (getDate tza now - getDay tza now)
  let start ← setHours tza start 0 0 0 0
  let stop ← setDate tza start (getDate tza start + 6)
  let stop ← setHours tza stop 23 59 59 999
  pure { start := isoDate start, «end» := isoDate stop }

/-- `getThisMonthDates()` at clock reading `now`. -/
def getThisMonthDates (tza now : Int) : Option DateRange := do
  let start ← newDate tza (getFullYear tza now) (getMonth tza now) 1
  let stop ← newDate tza (getFullYear tza now) (getMonth tza now + 1) 0
  pure { start := isoDate start, «end» := isoDate stop }

/-- `getThisYearDates()` at clock reading `now`. -/
def getThisYearDates (tza now : Int) : Option DateRange := do
  let start ← newDate tza (getFullYear tza now) 0 1
  let stop ← newDate tza (getFullYear tza now) 11 31
  pure { start := isoDate start, «end» := isoDate stop }

/-- `getLastMonthDates()` at clock reading `now`. -/
def getLastMonthDates (tza now : Int) : Option DateRange := do
  let start ← newDate tza (getFullYear tza now) (getMonth tza now - 1) 1
  let stop ← newDate tza (getFullYear tza now) (getMonth tza now) 0
  pure { start := isoDate start, «end» := isoDate stop }

/-- `parseCustomDateRange(message)`: the first two literal dates, `none`
for JavaScript `null`. -/
def parseCustomDateRange (message : List Char) : Option DateRange :=
  match matchDates message with
  | some (d0 :: d1 :: _) => some { start := d0, «end» := d1 }
  | _ => none

/-! ## Numbers of the store

An amount (`DECIMAL(10,2)`) is held as a whole number of cents; the
number it stands for is `cents / 100`. -/

/-- `Number.prototype.toFixed(2)` of the amount of `cents` cents. -/
def toFixed2 (cents : Int) : List Char :=
  (if cents < 0 then ['-'] else []) ++ natToString (cents.natAbs / 100) ++
  '.' :: fixedDigits 2 (cents.natAbs % 100)

/-- `Number::toString` of the amount of `cents` cents, as a template
literal renders it: no fraction for a whole number, no trailing zero. -/
def numberToString (cents : Int) : List Char :=
  let r := cents.natAbs % 100
  (if cents < 0 then ['-'] else []) ++ natToString (cents.natAbs / 100) ++
  (if r = 0 then [] else if r % 10 = 0 then '.' :: natToString (r / 10) else '.' :: fixedDigits 2 r)

/-! ## The chat route -/

/-- A row of the `orders` query of `handleCustomerQuery`; `description`
is `none` for SQL `NULL`. -/
structure OrderRow where
  project_name : List Char
  order_date : List Char
  total_amount : Int
  status : List Char
  description : Option (List Char)
  deriving DecidableEq, Repr

/-- What a handler comes to: the response it returns at once, a thrown
`RangeError`, or the store read it issues with the callback that resolves
the promise from the result of the read (`Except.error` for `err`). -/
inductive Outcome where
  | resolved (response : List Char)
  | rangeError
  | payrollRead (agentId : Nat) (startDate endDate : List Char)
      (callback : Except (List Char) (Option Int) → List Char)
  | ordersRead (pattern : List Char)
      (callback : Except (List Char) (List OrderRow) → List Char)

/-- The default response of `processMessage`. -/
def defaultResponse : List Char :=
  ("I can help you with payroll information and customer order details. Try asking about:\n" ++
   "• Payroll for this week, month, year, or last month\n" ++
   "• Orders for a specific customer\n" ++
   "• Custom date ranges for payroll").toList

/-- The response of `handlePayrollQuery` when no period was understood. -/
def unrecognizedPeriodResponse : List Char :=
  ("I couldn't understand the time period. Please specify 'this week', 'this month', " ++
   "'this year', 'last month', or use 'from YYYY-MM-DD to YYYY-MM-DD' format.").toList

/-- The response of `handleCustomerQuery` when no name was extracted. -/
def missingCustomerResponse : List Char :=
  ("Please specify a customer name. For example: 'Show orders for John Smith' " ++
   "or 'Customer John Smith'").toList

/-- The response when the payroll read fails. -/
def payrollErrorResponse : List Char :=
  "Sorry, I encountered an error while fetching payroll information.".toList

/-- The response when the orders read fails. -/
def customerErrorResponse : List Char :=
  "Sorry, I encountered an error while fetching customer information.".toList

/-- `isPayrollQuery(message)`. -/
def isPayrollQuery (message : List Char) : Bool :=
  let payrollKeywords :=
    ["payroll".toList, "salary".toList, "payment".toList, "earnings".toList, "income".toList]
  let timeKeywords :=
    ["week".toList, "month".toList, "year".toList, "period".toList, "range".toList]
  payrollKeywords.any (fun keyword => includes message keyword) ||
  timeKeywords.any (fun keyword => includes message keyword)

/-- `isCustomerQuery(message)`. -/
def isCustomerQuery (message : List Char) : Bool :=
  let customerKeywords :=
    ["customer".toList, "client".toList, "order".toList, "project".toList, "work".toList]
  customerKeywords.any (fun keyword => includes message keyword)

/-- The variables `startDate`, `endDate`, `periodName` of
`handlePayrollQuery` after the period has been parsed. -/
inductive Resolved where
  | rangeError
  | unset
  | range (startDate endDate periodName : List Char)
  deriving DecidableEq, Repr

/-- A named period: the dates of a date helper under the given label. -/
def Resolved.named (dates : Option DateRange) (periodName : List Char) : Resolved :=
  match dates with
  | none => .rangeError
  | some d => .range d.start d.end periodName

/-- The period parsing of `handlePayrollQuery` (the chain of `if`s on the
message). -/
def resolvePeriod (tza now : Int) (message : List Char) : Resolved :=
  if includes message "this week".toList then
    Resolved.named (getThisWeekDates tza now) "This Week".toList
  else if includes message "this month".toList then
    Resolved.named (getThisMonthDates tza now) "This Month".toList
  else if includes message "this year".toList then
    Resolved.named (getThisYearDates tza now) "This Year".toList
  else if includes message "last month".toList then
    Resolved.named (getLastMonthDates tza now) "Last Month".toList
  else if includes message "between".toList || includes message "from".toList ||
      includes message "to".toList then
    match parseCustomDateRange message with
    | some dates =>
      .range dates.start dates.end
        ("Custom Period (".toList ++ dates.start ++ " to ".toList ++ dates.end ++ [')'])
    | none => .unset
  else .unset

/-- The callback of the payroll read: the summary, or the apology on an
error. The argument is `row.total`, `none` for SQL `NULL`. -/
def payrollCallback (periodName startDate endDate : List Char) :
    Except (List Char) (Option Int) → List Char
  | .error _ => payrollErrorResponse
  | .ok rowTotal =>
    let total := rowTotal.getD 0
    "**".toList ++ periodName ++ " Payroll Summary**\n\nTotal Amount: $".toList ++
      toFixed2 total ++ "\nPeriod: ".toList ++ startDate ++ " to ".toList ++ endDate

/-- `handlePayrollQuery(message, agentId)`. -/
def handlePayrollQuery (tza now : Int) (message : List Char) (agentId : Nat) : Outcome :=
  match resolvePeriod tza now message with
  | .rangeError => .rangeError
  | .unset => .resolved unrecognizedPeriodResponse
  | .range startDate endDate periodName =>
    if startDate.isEmpty || endDate.isEmpty then .resolved unrecognizedPeriodResponse
    else .payrollRead agentId startDate endDate (payrollCallback periodName startDate endDate)

/-- The customer-name extraction of `handleCustomerQuery`. -/
def extractCustomerName (message : List Char) : List Char :=
  if includes message "customer".toList then
    let parts := split message "customer".toList
    if parts.length > 1 then trim (parts.getD 1 []) else []
  else if includes message "for".toList then
    let parts := split message "for".toList
    if parts.length > 1 then trim (parts.getD 1 []) else []
  else []

/-- One turn of the `forEach` of `handleCustomerQuery`: the text added
for `order` at position `index`. -/
def renderOrder (index : Nat) (order : OrderRow) : List Char :=
  natToString (index + 1) ++ ". **".toList ++ order.project_name ++ "**\n".toList ++
  "   Date: ".toList ++ order.order_date ++ "\n".toList ++
  "   Amount: $".toList ++ numberToString order.total_amount ++ "\n".toList ++
  "   Status: ".toList ++ order.status ++ "\n".toList ++
  (match order.description with
   | none => []
   | some d => if d.isEmpty then [] else "   Description: ".toList ++ d ++ "\n".toList) ++
  "\n".toList

/-- The callback of the orders read. -/
def ordersCallback (customerName : List Char) :
    Except (List Char) (List OrderRow) → List Char
  | .error _ => customerErrorResponse
  | .ok rows =>
    if rows.length = 0 then "No orders found for customer: ".toList ++ customerName
    else
      rows.enum.foldl (fun response io => response ++ renderOrder io.1 io.2)
        ("**Orders for ".toList ++ customerName ++ "**\n\n".toList)

/-- `handleCustomerQuery(message)`. -/
def handleCustomerQuery (message : List Char) : Outcome :=
  let customerName := extractCustomerName message
  if customerName.isEmpty then .resolved missingCustomerResponse
  else .ordersRead ('%' :: customerName ++ ['%']) (ordersCallback customerName)

/-- `processMessage(message, agentId)`. -/
def processMessage (tza now : Int) (message : List Char) (agentId : Nat) : Outcome :=
  let lowerMessage := toLowerCase message
  if isPayrollQuery lowerMessage then handlePayrollQuery tza now lowerMessage agentId
  else if isCustomerQuery lowerMessage then handleCustomerQuery lowerMessage
  else .resolved defaultResponse

/-! ## The calendar and the order of date strings, as the specification
speaks of them -/

/-- The Gregorian leap-year rule: every fourth year, except the centuries
that are not multiples of 400. -/
def isLeapYear (y : Int) : Bool :=
  (y % 4 = 0 && y % 100 != 0) || y % 400 = 0

/-- The number of days of month `m` (1 for January to 12) of year `y`. -/
def daysInMonth (y m : Int) : Int :=
  if m = 2 then (if isLeapYear y then 29 else 28)
  else if m = 4 ∨ m = 6 ∨ m = 9 ∨ m = 11 then 30
  else 31

/-- The string `YYYY-MM-DD` of the calendar date `y`-`m`-`d`. -/
def ymd (y m d : Int) : List Char :=
  fixedDigits 4 y.toNat ++ '-' :: fixedDigits 2 m.toNat ++ '-' :: fixedDigits 2 d.toNat

/-- The string `YYYY-MM-DD` of the calendar date of day number `day`. -/
def ymdOfDay (day : Int) : List Char :=
  ymd (YearFromTime (day * msPerDay)) (MonthFromTime (day * msPerDay) + 1)
    (DateFromTime (day * msPerDay))

/-- The comparison `a <= b` of two `TEXT` values in the store:
lexicographic by character code, a proper prefix first. -/
def strLe : List Char → List Char → Bool
  | [], _ => true
  | _ :: _, [] => false
  | a :: as, b :: bs => a.toNat < b.toNat || (a.toNat = b.toNat && strLe as bs)

/-! ## The classifier, the name extraction and the literal dates, as the
specification words them -/

/-- The intents of the specification. -/
inductive Intent where
  | Payroll
  | CustomerOrders
  | Unknown
  deriving DecidableEq, Repr

/-- The payroll keywords and the time keywords of the specification. -/
def payrollOrTimeKeywords : List (List Char) :=
  ["payroll".toList, "salary".toList, "payment".toList, "earnings".toList, "income".toList,
   "week".toList, "month".toList, "year".toList, "period".toList, "range".toList]

/-- The customer keywords of the specification. -/
def customerKeywords : List (List Char) :=
  ["customer".toList, "client".toList, "order".toList, "project".toList, "work".toList]

/-- The classifier of the specification: lower-case the message, then
Payroll if a payroll or time keyword is a substring, else CustomerOrders if
a customer keyword is a substring, else Unknown. -/
def classifySpec (message : List Char) : Intent :=
  if ∃ k ∈ payrollOrTimeKeywords, k <:+: toLowerCase message then .Payroll
  else if ∃ k ∈ customerKeywords, k <:+: toLowerCase message then .CustomerOrders
  else .Unknown

/-- The whole suffix of `s` behind the first occurrence of `pat`, `none`
when `pat` does not occur in `s`. -/
def suffixAfterFirst (pat : List Char) : List Char → Option (List Char)
  | [] => if pat.isEmpty then some [] else none
  | c :: cs =>
    if pat.isPrefixOf (c :: cs) then some ((c :: cs).drop pat.length)
    else suffixAfterFirst pat cs

/-- The name extraction of the specification: everything behind the first
`customer`, trimmed; else everything behind the first `for`, trimmed; else
the empty string. -/
def extractCustomerNameSpec (s : List Char) : List Char :=
  match suffixAfterFirst "customer".toList s with
  | some rest => trim rest
  | none =>
    match suffixAfterFirst "for".toList s with
    | some rest => trim rest
    | none => []

/-- A string of the shape `dddd-dd-dd`, `d` a decimal digit. -/
def isDateShaped : List Char → Bool
  | [a, b, c, d, h1, e, f, h2, g, h] =>
    isDigit a && isDigit b && isDigit c && isDigit d && h1 == '-' &&
    isDigit e && isDigit f && h2 == '-' && isDigit g && isDigit h
  | _ => false

/-- The ten characters of `s` from position `i` on. -/
def substringAt (s : List Char) (i : Nat) : List Char :=
  (s.drop i).take 10

/-- A substring of the shape `dddd-dd-dd` starts at position `i` of `s`. -/
def dateAt (s : List Char) (i : Nat) : Bool :=
  isDateShaped (substringAt s i)

/-! ## The store and the route of the chat endpoint -/

/-- A row of table `payroll` (`database/init.js`). -/
structure PayrollRecord where
  agent_id : Nat
  amount : Int
  period_start : List Char
  period_end : List Char
  payment_date : List Char
  deriving DecidableEq, Repr

/-- A row of table `orders` (`database/init.js`). -/
structure OrderRecord where
  customer_name : List Char
  project_name : List Char
  order_date : List Char
  total_amount : Int
  status : List Char
  description : Option (List Char)
  deriving DecidableEq, Repr

/-- A row of table `chat_history`, as `saveChatHistory` inserts it. -/
structure ChatTurn where
  agent_id : Nat
  message : List Char
  response : List Char
  deriving DecidableEq, Repr

/-- The tables of the database that the chat route touches. -/
structure Database where
  payroll : List PayrollRecord
  orders : List OrderRecord
  chat_history : List ChatTurn
  deriving DecidableEq, Repr

/-- The database engine on the three statements of the route: the sum over
table `payroll` and the selection from table `orders`, either of which may
fail with an error, and the insertion into `chat_history`, which gives the
new rows of that table or fails. -/
structure Engine where
  payrollSum : List PayrollRecord → Nat → List Char → List Char →
    Except (List Char) (Option Int)
  findOrders : List OrderRecord → List Char → Except (List Char) (List OrderRow)
  insertChat : List ChatTurn → ChatTurn → Except (List Char) (List ChatTurn)

/-- The value that `await` gives for the promise of a handler: the read that
the handler issued is done by the engine on the tables and its callback
resolves the promise; `none` when the promise is rejected. -/
def awaitOutcome (engine : Engine) (db : Database) : Outcome → Option (List Char)
  | .resolved response => some response
  | .rangeError => none
  | .payrollRead agentId startDate endDate callback =>
    some (callback (engine.payrollSum db.payroll agentId startDate endDate))
  | .ordersRead pattern callback => some (callback (engine.findOrders db.orders pattern))

/-- `saveChatHistory(agentId, message, response)`: the insert into
`chat_history`; an error is logged and the tables stay as they are. -/
def saveChatHistory (engine : Engine) (db : Database) (agentId : Nat)
    (message response : List Char) : Database :=
  match engine.insertChat db.chat_history
      { agent_id := agentId, message := message, response := response } with
  | .ok rows => { db with chat_history := rows }
  | .error _ => db

/-- What the endpoint `POST /message` sends. -/
inductive HttpReply where
  | json (response : List Char)
  | badRequest
  | internalError
  deriving DecidableEq, Repr

/-- The handler of `POST /message` behind the authentication, for a message
that is a string: the reply and the tables afterwards. -/
def postMessage (engine : Engine) (tza now : Int) (db : Database) (message : List Char)
    (agentId : Nat) : HttpReply × Database :=
  if message.isEmpty then (.badRequest, db)
  else
    match awaitOutcome engine db (processMessage tza now message agentId) with
    | none => (.internalError, db)
    | some response => (.json response, saveChatHistory engine db agentId message response)

/-! ## Amounts, order entries and local dates, as the specification words
them -/

/-- The number that a string of decimal digits denotes. -/
def decimalValue (s : List Char) : Nat :=
  s.foldl (fun acc c => 10 * acc + (c.toNat - 48)) 0

/-- The string `s` renders the amount of `cents` cents with exactly two
decimals and without a thousands separator: decimal digits, a point, two
decimal digits, nothing else, no leading zero before the units digit, and
the digits denote `cents`. -/
def isTwoDecimalsOf (cents : Nat) (s : List Char) : Prop :=
  ∃ whole frac : List Char, s = whole ++ '.' :: frac ∧
    whole ≠ [] ∧ (∀ c ∈ whole, isDigit c = true) ∧
    (whole.head? = some '0' → whole = ['0']) ∧
    frac.length = 2 ∧ (∀ c ∈ frac, isDigit c = true) ∧
    decimalValue (whole ++ frac) = cents

/-- The entry of the order list for the `i`-th row (from 1): the numbered
project line, then date, amount and status, then the description when
there is a non-empty one, then an empty line. -/
def orderEntrySpec (i : Nat) (order : OrderRow) : List Char :=
  let lines : List (List Char) :=
    [natToString i ++ ". **".toList ++ order.project_name ++ "**".toList,
     "   Date: ".toList ++ order.order_date,
     "   Amount: $".toList ++ numberToString order.total_amount,
     "   Status: ".toList ++ order.status] ++
    (match order.description with
     | some d => if d = [] then [] else ["   Description: ".toList ++ d]
     | none => []) ++
    [[]]
  (lines.map (fun line => line ++ ['\n'])).flatten

/-- The local calendar date, as `YYYY-MM-DD`, of the instant `tv` in a
zone of offset `tza`. -/
def localYmd (tza tv : Int) : List Char :=
  ymdOfDay (Day (LocalTime tza tv))

/-! ## Substring search -/

theorem includes_iff (s pat : List Char) : includes s pat = true ↔ pat <:+: s := by
  induction s with
  | nil => cases pat <;> simp [includes]
  | cons c cs ih =>
    simp only [includes, Bool.or_eq_true, ih, List.isPrefixOf_iff_prefix]
    rw [List.infix_cons_iff]

/-! ## The calendar of the runtime -/

theorem DayFromYear_succ (y : Int) : DayFromYear (y + 1) = DayFromYear y + DaysInYear y := by
  unfold DayFromYear DaysInYear
  split_ifs <;> omega

theorem DayFromYear_mono {a b : Int} (h : a ≤ b) : DayFromYear a ≤ DayFromYear b := by
  unfold DayFromYear
  omega

theorem DayFromYear_bounds (y : Int) :
    146097 * (y - 1970) - 506 ≤ 400 * DayFromYear y ∧
    400 * DayFromYear y ≤ 146097 * (y - 1970) + 589 := by
  unfold DayFromYear
  omega

/-- The year of a day number is the largest year that starts on or before it. -/
theorem yearFromDay_spec (d : Int) :
    DayFromYear (yearFromDay d) ≤ d ∧ d < DayFromYear (yearFromDay d + 1) := by
  unfold yearFromDay
  simp only
  have hq1 := Int.ediv_mul_le (400 * d) (show (146097 : Int) ≠ 0 by decide)
  have hq2 := Int.lt_ediv_add_one_mul_self (400 * d) (show (0 : Int) < 146097 by decide)
  generalize (400 * d) / 146097 = q at *
  split_ifs with h1 h2
  · have hb := DayFromYear_bounds (1970 + q - 1)
    rw [show 1970 + q - 1 + 1 = 1970 + q by ring]
    omega
  · have hb := DayFromYear_bounds (1970 + q + 1 + 1)
    omega
  · omega

theorem yearFromDay_unique {d y : Int} (h1 : DayFromYear y ≤ d) (h2 : d < DayFromYear (y + 1)) :
    yearFromDay d = y := by
  have h := yearFromDay_spec d
  by_contra hne
  rcases lt_or_gt_of_ne hne with hlt | hgt
  · have := DayFromYear_mono (show yearFromDay d + 1 ≤ y by omega)
    omega
  · have := DayFromYear_mono (show y + 1 ≤ yearFromDay d by omega)
    omega

theorem yearFromDay_mono {a b : Int} (h : a ≤ b) : yearFromDay a ≤ yearFromDay b := by
  have ha := yearFromDay_spec a
  have hb := yearFromDay_spec b
  by_contra hlt
  have := DayFromYear_mono (show yearFromDay b + 1 ≤ yearFromDay a by omega)
  omega

theorem leapOf_cases (y : Int) : leapOf y = 0 ∨ leapOf y = 1 := by
  unfold leapOf; split_ifs <;> simp

theorem DaysInYear_eq (y : Int) : DaysInYear y = 365 + leapOf y := by
  unfold leapOf DaysInYear; split_ifs <;> simp_all

theorem InLeapYear_eq (t : Int) : InLeapYear t = leapOf (YearFromTime t) := rfl

theorem DayWithinYear_range (t : Int) :
    0 ≤ DayWithinYear t ∧ DayWithinYear t < 365 + leapOf (YearFromTime t) := by
  have h := yearFromDay_spec (Day t)
  rw [DayFromYear_succ, DaysInYear_eq] at h
  unfold DayWithinYear YearFromTime
  constructor <;> omega

/-- The month table, one case per month. -/
theorem monthFromDayWithinYear_cases (d l : Int) :
    (d < 31 ∧ monthFromDayWithinYear d l = 0) ∨
    (31 ≤ d ∧ d < 59 + l ∧ monthFromDayWithinYear d l = 1) ∨
    (59 + l ≤ d ∧ d < 90 + l ∧ monthFromDayWithinYear d l = 2) ∨
    (90 + l ≤ d ∧ d < 120 + l ∧ monthFromDayWithinYear d l = 3) ∨
    (120 + l ≤ d ∧ d < 151 + l ∧ monthFromDayWithinYear d l = 4) ∨
    (151 + l ≤ d ∧ d < 181 + l ∧ monthFromDayWithinYear d l = 5) ∨
    (181 + l ≤ d ∧ d < 212 + l ∧ monthFromDayWithinYear d l = 6) ∨
    (212 + l ≤ d ∧ d < 243 + l ∧ monthFromDayWithinYear d l = 7) ∨
    (243 + l ≤ d ∧ d < 273 + l ∧ monthFromDayWithinYear d l = 8) ∨
    (273 + l ≤ d ∧ d < 304 + l ∧ monthFromDayWithinYear d l = 9) ∨
    (304 + l ≤ d ∧ d < 334 + l ∧ monthFromDayWithinYear d l = 10) ∨
    (334 + l ≤ d ∧ monthFromDayWithinYear d l = 11) := by
  unfold monthFromDayWithinYear
  by_cases h0 : d < 31
  · rw [if_pos h0]; exact Or.inl ⟨h0, rfl⟩
  rw [if_neg h0]
  by_cases h1 : d < 59 + l
  · rw [if_pos h1]; exact Or.inr (Or.inl ⟨not_lt.1 h0, h1, rfl⟩)
  rw [if_neg h1]
  by_cases h2 : d < 90 + l
  · rw [if_pos h2]; exact Or.inr (Or.inr (Or.inl ⟨not_lt.1 h1, h2, rfl⟩))
  rw [if_neg h2]
  by_cases h3 : d < 120 + l
  · rw [if_pos h3]; exact Or.inr (Or.inr (Or.inr (Or.inl ⟨not_lt.1 h2, h3, rfl⟩)))
  rw [if_neg h3]
  by_cases h4 : d < 151 + l
  · rw [if_pos h4]; exact Or.inr (Or.inr (Or.inr (Or.inr (Or.inl ⟨not_lt.1 h3, h4, rfl⟩))))
  rw [if_neg h4]
  by_cases h5 : d < 181 + l
  · rw [if_pos h5]; exact Or.inr (Or.inr (Or.inr (Or.inr (Or.inr (Or.inl ⟨not_lt.1 h4, h5, rfl⟩)))))
  rw [if_neg h5]
  by_cases h6 : d < 212 + l
  · rw [if_pos h6]; exact Or.inr (Or.inr (Or.inr (Or.inr (Or.inr (Or.inr (Or.inl ⟨not_lt.1 h5, h6, rfl⟩))))))
  rw [if_neg h6]
  by_cases h7 : d < 243 + l
  · rw [if_pos h7]; exact Or.inr (Or.inr (Or.inr (Or.inr (Or.inr (Or.inr (Or.inr (Or.inl ⟨not_lt.1 h6, h7, rfl⟩)))))))
  rw [if_neg h7]
  by_cases h8 : d < 273 + l
  · rw [if_pos h8]; exact Or.inr (Or.inr (Or.inr (Or.inr (Or.inr (Or.inr (Or.inr (Or.inr (Or.inl ⟨not_lt.1 h7, h8, rfl⟩))))))))
  rw [if_neg h8]
  by_cases h9 : d < 304 + l
  · rw [if_pos h9]; exact Or.inr (Or.inr (Or.inr (Or.inr (Or.inr (Or.inr (Or.inr (Or.inr (Or.inr (Or.inl ⟨not_lt.1 h8, h9, rfl⟩)))))))))
  rw [if_neg h9]
  by_cases h10 : d < 334 + l
  · rw [if_pos h10]; exact Or.inr (Or.inr (Or.inr (Or.inr (Or.inr (Or.inr (Or.inr (Or.inr (Or.inr (Or.inr (Or.inl ⟨not_lt.1 h9, h10, rfl⟩))))))))))
  rw [if_neg h10]
  exact Or.inr (Or.inr (Or.inr (Or.inr (Or.inr (Or.inr (Or.inr (Or.inr (Or.inr (Or.inr (Or.inr (⟨not_lt.1 h10, rfl⟩)))))))))))

theorem monthFromDayWithinYear_range (d l : Int) :
    0 ≤ monthFromDayWithinYear d l ∧ monthFromDayWithinYear d l ≤ 11 := by
  rcases monthFromDayWithinYear_cases d l with h | h | h | h | h | h | h | h | h | h | h | h <;>
    omega

theorem MonthFromTime_range (t : Int) : 0 ≤ MonthFromTime t ∧ MonthFromTime t ≤ 11 :=
  monthFromDayWithinYear_range _ _

/-- The month and date tables invert `daysBeforeMonth`. -/
theorem daysBeforeMonth_add_date (d l : Int) :
    daysBeforeMonth (monthFromDayWithinYear d l) l +
      dateFromDayWithinYear (monthFromDayWithinYear d l) d l - 1 = d := by
  rcases monthFromDayWithinYear_cases d l with h | h | h | h | h | h | h | h | h | h | h | h <;>
    (simp only [h, daysBeforeMonth, dateFromDayWithinYear]; norm_num; try omega)

/-- The day number of a time value, rebuilt from its year, month and date. -/
theorem Day_eq_civil (t : Int) :
    Day t = DayFromYear (YearFromTime t) +
      daysBeforeMonth (MonthFromTime t) (leapOf (YearFromTime t)) + DateFromTime t - 1 := by
  have hd : Day t = DayFromYear (YearFromTime t) + DayWithinYear t := by
    unfold DayWithinYear; omega
  have h := daysBeforeMonth_add_date (DayWithinYear t) (leapOf (YearFromTime t))
  unfold DateFromTime MonthFromTime InLeapYear
  omega

theorem MakeDay_of_month_range (y m d : Int) (h0 : 0 ≤ m) (h1 : m ≤ 11) :
    MakeDay y m d = DayFromYear y + daysBeforeMonth m (leapOf y) + d - 1 := by
  unfold MakeDay
  have e1 : m / 12 = 0 := by omega
  have e2 : m % 12 = m := by omega
  simp only [e1, e2, add_zero]

/-- `MakeDay` on the fields of a time value, with the date moved by `k`. -/
theorem MakeDay_civil (t k : Int) :
    MakeDay (YearFromTime t) (MonthFromTime t) (DateFromTime t + k) = Day t + k := by
  have hm := MonthFromTime_range t
  rw [MakeDay_of_month_range _ _ _ hm.1 hm.2, Day_eq_civil t]
  omega

theorem leapOf_eq_isLeapYear (y : Int) : leapOf y = if isLeapYear y then 1 else 0 := by
  unfold leapOf DaysInYear isLeapYear
  by_cases h4 : y % 4 = 0 <;> by_cases h100 : y % 100 = 0 <;> by_cases h400 : y % 400 = 0 <;>
    simp [h4, h100, h400] <;> omega

theorem daysInMonth_february (y : Int) : daysInMonth y 2 = 28 + leapOf y := by
  rw [leapOf_eq_isLeapYear]
  unfold daysInMonth
  split_ifs <;> simp_all

/-- The table of the months: days before the month and days of the month. -/
theorem month_table (y m : Int) (h0 : 0 ≤ m) (h1 : m ≤ 11) :
    (m = 0 ∧ daysBeforeMonth m (leapOf y) = 0 ∧ daysInMonth y (m + 1) = 31) ∨
    (m = 1 ∧ daysBeforeMonth m (leapOf y) = 31 ∧ daysInMonth y (m + 1) = 28 + leapOf y) ∨
    (m = 2 ∧ daysBeforeMonth m (leapOf y) = 59 + leapOf y ∧ daysInMonth y (m + 1) = 31) ∨
    (m = 3 ∧ daysBeforeMonth m (leapOf y) = 90 + leapOf y ∧ daysInMonth y (m + 1) = 30) ∨
    (m = 4 ∧ daysBeforeMonth m (leapOf y) = 120 + leapOf y ∧ daysInMonth y (m + 1) = 31) ∨
    (m = 5 ∧ daysBeforeMonth m (leapOf y) = 151 + leapOf y ∧ daysInMonth y (m + 1) = 30) ∨
    (m = 6 ∧ daysBeforeMonth m (leapOf y) = 181 + leapOf y ∧ daysInMonth y (m + 1) = 31) ∨
    (m = 7 ∧ daysBeforeMonth m (leapOf y) = 212 + leapOf y ∧ daysInMonth y (m + 1) = 31) ∨
    (m = 8 ∧ daysBeforeMonth m (leapOf y) = 243 + leapOf y ∧ daysInMonth y (m + 1) = 30) ∨
    (m = 9 ∧ daysBeforeMonth m (leapOf y) = 273 + leapOf y ∧ daysInMonth y (m + 1) = 31) ∨
    (m = 10 ∧ daysBeforeMonth m (leapOf y) = 304 + leapOf y ∧ daysInMonth y (m + 1) = 30) ∨
    (m = 11 ∧ daysBeforeMonth m (leapOf y) = 334 + leapOf y ∧ daysInMonth y (m + 1) = 31) := by
  have hf := daysInMonth_february y
  interval_cases m <;> simp [daysBeforeMonth] <;> first | exact hf | simp [daysInMonth]

theorem civil_of_day (t y m d : Int) (h0 : 0 ≤ m) (h1 : m ≤ 11) (hd1 : 1 ≤ d)
    (hd2 : d ≤ daysInMonth y (m + 1))
    (ht : Day t = DayFromYear y + daysBeforeMonth m (leapOf y) + d - 1) :
    YearFromTime t = y ∧ MonthFromTime t = m ∧ DateFromTime t = d := by
  have hl := leapOf_cases y
  have htab := month_table y m h0 h1
  generalize hb : daysBeforeMonth m (leapOf y) = b at *
  generalize daysInMonth y (m + 1) = n at *
  have hy : YearFromTime t = y := by
    apply yearFromDay_unique
    · omega
    · rw [DayFromYear_succ, DaysInYear_eq]; omega
  have hw : DayWithinYear t = b + d - 1 := by
    unfold DayWithinYear; rw [hy]; omega
  have hm : MonthFromTime t = m := by
    unfold MonthFromTime InLeapYear
    rw [hy, hw]
    rcases monthFromDayWithinYear_cases (b + d - 1) (leapOf y) with
      h | h | h | h | h | h | h | h | h | h | h | h <;> omega
  refine ⟨hy, hm, ?_⟩
  have hc := Day_eq_civil t
  rw [hy, hm, hb] at hc
  omega

/-! ## Digits and date strings -/

theorem digitChar_toNat : ∀ k, k < 10 → (Nat.digitChar k).toNat = 48 + k := by decide

theorem length_fixedDigits (w n : Nat) : (fixedDigits w n).length = w := by
  induction w generalizing n with
  | zero => rfl
  | succ w ih => simp [fixedDigits, ih]

theorem fixedDigits_toNat_le (w n : Nat) : ∀ c ∈ fixedDigits w n, c.toNat ≤ 57 := by
  induction w generalizing n with
  | zero => simp [fixedDigits]
  | succ w ih =>
    intro c hc
    simp only [fixedDigits, List.mem_append, List.mem_singleton] at hc
    rcases hc with hc | hc
    · exact ih _ c hc
    · rw [hc, digitChar_toNat _ (Nat.mod_lt _ (by decide))]
      have := Nat.mod_lt n (show 0 < 10 by decide)
      omega

theorem splitGo_T_cons_ne (c : Char) (xs cur : List Char) (hc : c ≠ 'T') :
    splitGo ['T'] 0 cur (c :: xs) = splitGo ['T'] 0 (c :: cur) xs := by
  have hc2 : ¬ ('T' = c) := fun e => hc e.symm
  simp [splitGo, List.isPrefixOf, hc2]

theorem splitGo_T_cons_T (xs cur : List Char) :
    splitGo ['T'] 0 cur ('T' :: xs) = cur.reverse :: splitGo ['T'] 0 [] xs := by
  simp [splitGo, List.isPrefixOf]

/-- Worker and separator `T`: the first piece ends at the first `T`. -/
theorem splitGo_T (pre rest cur : List Char) (h : ∀ c ∈ pre, c ≠ 'T') :
    splitGo ['T'] 0 cur (pre ++ 'T' :: rest) =
      (cur.reverse ++ pre) :: splitGo ['T'] 0 [] rest := by
  induction pre generalizing cur with
  | nil => simp [splitGo_T_cons_T]
  | cons c cs ih =>
    rw [List.cons_append, splitGo_T_cons_ne _ _ _ (h c (List.mem_cons_self _ _)),
      ih _ (fun x hx => h x (List.mem_cons_of_mem _ hx))]
    simp

theorem isoYear_toNat_le (y : Int) : ∀ c ∈ isoYear y, c.toNat ≤ 57 := by
  intro c hc
  unfold isoYear at hc
  split_ifs at hc with h1 h2
  · exact fixedDigits_toNat_le _ _ c hc
  · rcases List.mem_cons.1 hc with e | hc
    · rw [e]; decide
    · exact fixedDigits_toNat_le _ _ c hc
  · rcases List.mem_cons.1 hc with e | hc
    · rw [e]; decide
    · exact fixedDigits_toNat_le _ _ c hc

/-- The date part of `toISOString`, as the date helpers cut it off. -/
theorem isoDate_eq (t : Int) :
    isoDate t = isoYear (YearFromTime t) ++ '-' :: fixedDigits 2 (MonthFromTime t + 1).toNat ++
      '-' :: fixedDigits 2 (DateFromTime t).toNat := by
  unfold isoDate split toISOString
  have hpre : ∀ c ∈ isoYear (YearFromTime t) ++ '-' :: fixedDigits 2 (MonthFromTime t + 1).toNat ++
      '-' :: fixedDigits 2 (DateFromTime t).toNat, c ≠ 'T' := by
    intro c hc e
    have h57 : c.toNat ≤ 57 := by
      rcases List.mem_append.1 hc with hc | hc
      · rcases List.mem_append.1 hc with hc | hc
        · exact isoYear_toNat_le _ c hc
        · rcases List.mem_cons.1 hc with hc | hc
          · rw [hc]; decide
          · exact fixedDigits_toNat_le _ _ c hc
      · rcases List.mem_cons.1 hc with hc | hc
        · rw [hc]; decide
        · exact fixedDigits_toNat_le _ _ c hc
    rw [e] at h57
    exact absurd h57 (by decide)
  have := splitGo_T _ (fixedDigits 2 (HourFromTime t).toNat ++
    ':' :: fixedDigits 2 (MinFromTime t).toNat ++ ':' :: fixedDigits 2 (SecFromTime t).toNat ++
    '.' :: fixedDigits 3 (msFromTime t).toNat ++ ['Z']) [] hpre
  simp only [List.append_assoc, List.cons_append, List.reverse_nil, List.nil_append] at this ⊢
  rw [this]
  rfl

theorem Day_mul_msPerDay (d : Int) : Day (d * msPerDay) = d := by
  unfold Day msPerDay; omega

theorem Day_mul_add (d r : Int) (h0 : 0 ≤ r) (h1 : r < 86400000) :
    Day (d * msPerDay + r) = d := by
  unfold Day msPerDay; omega

theorem YearFromTime_of_Day {t u : Int} (h : Day t = Day u) : YearFromTime t = YearFromTime u := by
  unfold YearFromTime; rw [h]

theorem MonthFromTime_of_Day {t u : Int} (h : Day t = Day u) :
    MonthFromTime t = MonthFromTime u := by
  unfold MonthFromTime DayWithinYear InLeapYear YearFromTime; rw [h]

theorem DateFromTime_of_Day {t u : Int} (h : Day t = Day u) :
    DateFromTime t = DateFromTime u := by
  unfold DateFromTime
  rw [MonthFromTime_of_Day h]
  unfold DayWithinYear InLeapYear YearFromTime; rw [h]

/-- In a four-digit year the date helpers produce `YYYY-MM-DD`. -/
theorem isoDate_eq_ymd (t : Int) (h0 : 0 ≤ YearFromTime t) (h1 : YearFromTime t ≤ 9999) :
    isoDate t = ymd (YearFromTime t) (MonthFromTime t + 1) (DateFromTime t) := by
  rw [isoDate_eq]
  unfold isoYear ymd
  rw [if_pos ⟨h0, h1⟩]

theorem isoDate_eq_ymdOfDay (t : Int) (h0 : 0 ≤ YearFromTime t) (h1 : YearFromTime t ≤ 9999) :
    isoDate t = ymdOfDay (Day t) := by
  rw [isoDate_eq_ymd t h0 h1]
  have h : Day t = Day (Day t * msPerDay) := (Day_mul_msPerDay _).symm
  unfold ymdOfDay
  rw [YearFromTime_of_Day h, MonthFromTime_of_Day h, DateFromTime_of_Day h]

/-! ## The order of date strings -/

theorem strLe_refl (x : List Char) : strLe x x = true := by
  induction x with
  | nil => rfl
  | cons a as ih => simp [strLe, ih]

theorem strLe_append_left (x r s : List Char) : strLe (x ++ r) (x ++ s) = strLe r s := by
  induction x with
  | nil => rfl
  | cons a as ih => simp [strLe, ih]

theorem strLe_fixedDigits_lt (w a b : Nat) (h : a < b) (hb : b < 10 ^ w) (r s : List Char) :
    strLe (fixedDigits w a ++ r) (fixedDigits w b ++ s) = true := by
  induction w generalizing a b r s with
  | zero => simp at hb; omega
  | succ w ih =>
    simp only [fixedDigits, List.append_assoc, List.singleton_append]
    rcases Nat.lt_or_ge (a / 10) (b / 10) with hlt | hge
    · exact ih _ _ hlt (by rw [pow_succ] at hb; omega) _ _
    · have he : a / 10 = b / 10 := by omega
      rw [he, strLe_append_left]
      have ha' := digitChar_toNat (a % 10) (Nat.mod_lt _ (by decide))
      have hb' := digitChar_toNat (b % 10) (Nat.mod_lt _ (by decide))
      simp only [strLe, ha', hb', Bool.or_eq_true, decide_eq_true_eq]
      left; omega

theorem strLe_cons_same (c : Char) (r s : List Char) : strLe (c :: r) (c :: s) = strLe r s := by
  simp [strLe]

/-- Date strings of four-digit years are ordered as their dates are. -/
theorem strLe_ymd (y1 m1 d1 y2 m2 d2 : Int)
    (hy1 : 0 ≤ y1) (hy2 : y2 ≤ 9999) (hm1 : 0 ≤ m1) (hm2 : m2 ≤ 99) (hd1 : 0 ≤ d1) (hd2 : d2 ≤ 99)
    (h : y1 < y2 ∨ (y1 = y2 ∧ (m1 < m2 ∨ (m1 = m2 ∧ d1 ≤ d2)))) :
    strLe (ymd y1 m1 d1) (ymd y2 m2 d2) = true := by
  unfold ymd
  simp only [List.append_assoc, List.cons_append]
  rcases h with h | ⟨rfl, h⟩
  · exact strLe_fixedDigits_lt 4 y1.toNat y2.toNat (by omega) (by norm_num; omega) _ _
  rw [strLe_append_left, strLe_cons_same]
  rcases h with h | ⟨rfl, h⟩
  · exact strLe_fixedDigits_lt 2 m1.toNat m2.toNat (by omega) (by norm_num; omega) _ _
  rw [strLe_append_left, strLe_cons_same]
  rcases lt_or_eq_of_le h with h | rfl
  · have := strLe_fixedDigits_lt 2 d1.toNat d2.toNat (by omega) (by norm_num; omega) [] []
    simpa using this
  · exact strLe_refl _

/-! ## The date helpers in a process on UTC -/

theorem TimeClip_of_bounds (t : Int) (h1 : -8640000000000000 ≤ t) (h2 : t ≤ 8640000000000000) :
    TimeClip t = some t := by
  unfold TimeClip
  rw [if_neg]
  omega

theorem Day_bounds_of_year (t a b : Int) (h1 : a ≤ YearFromTime t) (h2 : YearFromTime t ≤ b) :
    DayFromYear a ≤ Day t ∧ Day t < DayFromYear (b + 1) := by
  have hs := yearFromDay_spec (Day t)
  have ha := DayFromYear_mono h1
  have hb := DayFromYear_mono (show YearFromTime t + 1 ≤ b + 1 by omega)
  unfold YearFromTime at ha hb
  constructor <;> omega

theorem DayFromYear_999 : DayFromYear 999 = -354650 := by decide
theorem DayFromYear_1000 : DayFromYear 1000 = -354285 := by decide
theorem DayFromYear_10000 : DayFromYear 10000 = 2932897 := by decide
theorem DayFromYear_10001 : DayFromYear 10001 = 2933263 := by decide

/-- The string of a date given by year, month (from 0) and day of month. -/
theorem isoDate_of_civil (t y m d : Int) (hy0 : 0 ≤ y) (hy1 : y ≤ 9999) (h0 : 0 ≤ m) (h1 : m ≤ 11)
    (hd1 : 1 ≤ d) (hd2 : d ≤ daysInMonth y (m + 1))
    (ht : Day t = DayFromYear y + daysBeforeMonth m (leapOf y) + d - 1) :
    isoDate t = ymd y (m + 1) d := by
  obtain ⟨e1, e2, e3⟩ := civil_of_day t y m d h0 h1 hd1 hd2 ht
  rw [isoDate_eq_ymd t (by omega) (by omega), e1, e2, e3]

theorem daysInMonth_range (y m : Int) : 28 ≤ daysInMonth y m ∧ daysInMonth y m ≤ 31 := by
  unfold daysInMonth
  split_ifs <;> omega

/-- `new Date(y, m, d)` in a process on UTC, for a year that is not
taken as a two-digit year. -/
theorem newDate_utc (y m d : Int) (hy : ¬ (0 ≤ y ∧ y ≤ 99))
    (h1 : -100000000 ≤ MakeDay y m d) (h2 : MakeDay y m d ≤ 100000000) :
    newDate 0 y m d = some (MakeDay y m d * msPerDay) := by
  unfold newDate
  simp only [if_neg hy, UTC, MakeDate, MakeTime]
  norm_num
  apply TimeClip_of_bounds <;> (unfold msPerDay; omega)

/-- Day 0 of the month after month `m` is the last day of month `m`. -/
theorem MakeDay_last_of_month (y m : Int) (h0 : 0 ≤ m) (h1 : m ≤ 11) :
    MakeDay y (m + 1) 0 =
      DayFromYear y + daysBeforeMonth m (leapOf y) + daysInMonth y (m + 1) - 1 := by
  have htab := month_table y m h0 h1
  by_cases h11 : m = 11
  · subst h11
    have hs := DayFromYear_succ y
    rw [DaysInYear_eq] at hs
    unfold MakeDay
    norm_num
    simp only [daysBeforeMonth] at htab ⊢
    norm_num at htab ⊢
    omega
  · have htab2 := month_table y (m + 1) (by omega) (by omega)
    rw [MakeDay_of_month_range y (m + 1) 0 (by omega) (by omega)]
    omega

/-- Month `m - 1` of year `y`, as year and month. -/
theorem MakeDay_prev_month (y m d : Int) (h0 : 0 ≤ m) (h1 : m ≤ 11) :
    MakeDay y (m - 1) d =
      DayFromYear (if m = 0 then y - 1 else y) +
        daysBeforeMonth (if m = 0 then 11 else m - 1) (leapOf (if m = 0 then y - 1 else y)) +
        d - 1 := by
  by_cases hm : m = 0
  · subst hm
    unfold MakeDay
    norm_num
    rfl
  · rw [if_neg hm, if_neg hm, MakeDay_of_month_range y (m - 1) d (by omega) (by omega)]

theorem MakeDay_last_of_prev_month (y m : Int) (h0 : 0 ≤ m) (h1 : m ≤ 11) :
    MakeDay y m 0 =
      DayFromYear (if m = 0 then y - 1 else y) +
        daysBeforeMonth (if m = 0 then 11 else m - 1) (leapOf (if m = 0 then y - 1 else y)) +
        daysInMonth (if m = 0 then y - 1 else y) ((if m = 0 then 11 else m - 1) + 1) - 1 := by
  by_cases hm : m = 0
  · subst hm
    have hs := DayFromYear_succ (y - 1)
    rw [DaysInYear_eq, show y - 1 + 1 = y by ring] at hs
    have htab := month_table (y - 1) 11 (by norm_num) (by norm_num)
    rw [MakeDay_of_month_range y 0 0 (by norm_num) (by norm_num)]
    simp only [if_true]
    have hb0 : daysBeforeMonth 0 (leapOf y) = 0 := by simp [daysBeforeMonth]
    omega
  · simp only [if_neg hm]
    have := MakeDay_last_of_month y (m - 1) (by omega) (by omega)
    rw [show m - 1 + 1 = m by ring] at this
    rw [show m - 1 + 1 = m by ring]
    exact this

/-- `new Date(y, m, d)` and its date string, when the day it denotes is
day `d'` of month `m'` (from 0) of the four-digit year `y'`. -/
theorem newDate_isoDate (y m d y' m' d' : Int) (hy : 100 ≤ y)
    (hy0 : 999 ≤ y') (hy1 : y' ≤ 9999) (h0 : 0 ≤ m') (h1 : m' ≤ 11)
    (hd1 : 1 ≤ d') (hd2 : d' ≤ daysInMonth y' (m' + 1))
    (hday : MakeDay y m d = DayFromYear y' + daysBeforeMonth m' (leapOf y') + d' - 1) :
    ∃ tv, newDate 0 y m d = some tv ∧ Day tv = MakeDay y m d ∧ isoDate tv = ymd y' (m' + 1) d' := by
  have htab := month_table y' m' h0 h1
  have hl := leapOf_cases y'
  have ha := DayFromYear_mono hy0
  have hb := DayFromYear_mono hy1
  rw [DayFromYear_999] at ha
  have h9999 : DayFromYear 9999 = 2932532 := by decide
  rw [h9999] at hb
  refine ⟨MakeDay y m d * msPerDay, newDate_utc y m d (by omega) (by omega) (by omega),
    Day_mul_msPerDay _, ?_⟩
  exact isoDate_of_civil _ y' m' d' (by omega) hy1 h0 h1 hd1 hd2 (by rw [Day_mul_msPerDay]; exact hday)

theorem LocalTime_utc (t : Int) : LocalTime 0 t = t := by simp [LocalTime]

theorem getThisMonthDates_utc (now : Int) (h1 : 1000 ≤ YearFromTime now)
    (h2 : YearFromTime now ≤ 9999) :
    ∃ tvs tve, newDate 0 (YearFromTime now) (MonthFromTime now) 1 = some tvs ∧
      newDate 0 (YearFromTime now) (MonthFromTime now + 1) 0 = some tve ∧
      Day tvs ≤ Day tve ∧
      getThisMonthDates 0 now = some
        { start := ymd (YearFromTime now) (MonthFromTime now + 1) 1,
          «end» := ymd (YearFromTime now) (MonthFromTime now + 1)
            (daysInMonth (YearFromTime now) (MonthFromTime now + 1)) } := by
  have hm := MonthFromTime_range now
  have hdim := daysInMonth_range (YearFromTime now) (MonthFromTime now + 1)
  obtain ⟨tvs, hs1, hs2, hs3⟩ := newDate_isoDate (YearFromTime now) (MonthFromTime now) 1
    (YearFromTime now) (MonthFromTime now) 1 (by omega) (by omega) h2 hm.1 hm.2 (by norm_num)
    (by omega) (MakeDay_of_month_range _ _ _ hm.1 hm.2)
  obtain ⟨tve, he1, he2, he3⟩ := newDate_isoDate (YearFromTime now) (MonthFromTime now + 1) 0
    (YearFromTime now) (MonthFromTime now) (daysInMonth (YearFromTime now) (MonthFromTime now + 1))
    (by omega) (by omega) h2 hm.1 hm.2 (by omega) (le_refl _)
    (MakeDay_last_of_month _ _ hm.1 hm.2)
  refine ⟨tvs, tve, hs1, he1, ?_, ?_⟩
  · rw [hs2, he2, MakeDay_of_month_range _ _ _ hm.1 hm.2, MakeDay_last_of_month _ _ hm.1 hm.2]
    omega
  · unfold getThisMonthDates getFullYear getMonth
    simp only [LocalTime_utc, hs1, he1, hs3, he3, Option.bind_eq_bind, Option.some_bind,
      Option.pure_def]

theorem getLastMonthDates_utc (now : Int) (h1 : 1000 ≤ YearFromTime now)
    (h2 : YearFromTime now ≤ 9999) :
    ∃ tvs tve, newDate 0 (YearFromTime now) (MonthFromTime now - 1) 1 = some tvs ∧
      newDate 0 (YearFromTime now) (MonthFromTime now) 0 = some tve ∧
      Day tvs ≤ Day tve ∧
      getLastMonthDates 0 now = some
        { start := ymd (if MonthFromTime now = 0 then YearFromTime now - 1 else YearFromTime now)
            (if MonthFromTime now = 0 then 12 else MonthFromTime now) 1,
          «end» := ymd (if MonthFromTime now = 0 then YearFromTime now - 1 else YearFromTime now)
            (if MonthFromTime now = 0 then 12 else MonthFromTime now)
            (daysInMonth (if MonthFromTime now = 0 then YearFromTime now - 1 else YearFromTime now)
              (if MonthFromTime now = 0 then 12 else MonthFromTime now)) } := by
  have hm := MonthFromTime_range now
  have e12 : (if MonthFromTime now = 0 then (12 : Int) else MonthFromTime now) =
      (if MonthFromTime now = 0 then 11 else MonthFromTime now - 1) + 1 := by
    split_ifs <;> ring
  rw [e12]
  generalize hpy : (if MonthFromTime now = 0 then YearFromTime now - 1 else YearFromTime now) = py
  generalize hpm : (if MonthFromTime now = 0 then (11 : Int) else MonthFromTime now - 1) = pm
  have hpy1 : 999 ≤ py ∧ py ≤ 9999 := by rw [← hpy]; split_ifs <;> omega
  have hpm1 : 0 ≤ pm ∧ pm ≤ 11 := by rw [← hpm]; split_ifs <;> omega
  have hdim := daysInMonth_range py (pm + 1)
  have hd1 := MakeDay_prev_month (YearFromTime now) (MonthFromTime now) 1 hm.1 hm.2
  have hd2 := MakeDay_last_of_prev_month (YearFromTime now) (MonthFromTime now) hm.1 hm.2
  rw [hpy, hpm] at hd1 hd2
  obtain ⟨tvs, hs1, hs2, hs3⟩ := newDate_isoDate (YearFromTime now) (MonthFromTime now - 1) 1
    py pm 1 (by omega) hpy1.1 hpy1.2 hpm1.1 hpm1.2 (by norm_num) (by omega) hd1
  obtain ⟨tve, he1, he2, he3⟩ := newDate_isoDate (YearFromTime now) (MonthFromTime now) 0
    py pm (daysInMonth py (pm + 1)) (by omega) hpy1.1 hpy1.2 hpm1.1 hpm1.2 (by omega) (le_refl _) hd2
  refine ⟨tvs, tve, hs1, he1, ?_, ?_⟩
  · rw [hs2, he2, hd1, hd2]; omega
  · unfold getLastMonthDates getFullYear getMonth
    simp only [LocalTime_utc, hs1, he1, hs3, he3, Option.bind_eq_bind, Option.some_bind,
      Option.pure_def]

theorem getThisYearDates_utc (now : Int) (h1 : 1000 ≤ YearFromTime now)
    (h2 : YearFromTime now ≤ 9999) :
    ∃ tvs tve, newDate 0 (YearFromTime now) 0 1 = some tvs ∧
      newDate 0 (YearFromTime now) 11 31 = some tve ∧
      Day tvs ≤ Day tve ∧
      getThisYearDates 0 now = some
        { start := ymd (YearFromTime now) 1 1, «end» := ymd (YearFromTime now) 12 31 } := by
  obtain ⟨tvs, hs1, hs2, hs3⟩ := newDate_isoDate (YearFromTime now) 0 1
    (YearFromTime now) 0 1 (by omega) (by omega) h2 (by norm_num) (by norm_num) (by norm_num)
    (by simp [daysInMonth]) (MakeDay_of_month_range _ _ _ (by norm_num) (by norm_num))
  obtain ⟨tve, he1, he2, he3⟩ := newDate_isoDate (YearFromTime now) 11 31
    (YearFromTime now) 11 31 (by omega) (by omega) h2 (by norm_num) (by norm_num) (by norm_num)
    (by simp [daysInMonth]) (MakeDay_of_month_range _ _ _ (by norm_num) (by norm_num))
  have hl := leapOf_cases (YearFromTime now)
  refine ⟨tvs, tve, hs1, he1, ?_, ?_⟩
  · rw [hs2, he2, MakeDay_of_month_range _ _ _ (by norm_num) (by norm_num),
      MakeDay_of_month_range _ _ _ (by norm_num) (by norm_num)]
    simp only [daysBeforeMonth]
    norm_num
    omega
  · unfold getThisYearDates getFullYear
    norm_num at hs3 he3
    simp only [LocalTime_utc, hs1, he1, hs3, he3, Option.bind_eq_bind, Option.some_bind,
      Option.pure_def]

theorem WeekDay_range (t : Int) : 0 ≤ WeekDay t ∧ WeekDay t ≤ 6 := by
  unfold WeekDay; omega

theorem setDate_utc (t k : Int) :
    setDate 0 t (getDate 0 t + k) = TimeClip (t + k * msPerDay) := by
  unfold setDate getDate
  simp only [LocalTime_utc, MakeDay_civil, UTC, MakeDate, TimeWithinDay, Day, sub_zero]
  congr 1
  have := Int.ediv_add_emod t msPerDay
  have e : (t / msPerDay + k) * msPerDay = msPerDay * (t / msPerDay) + k * msPerDay := by ring
  rw [e]; omega

theorem setHours_utc (t h m s ms : Int) :
    setHours 0 t h m s ms = TimeClip (Day t * msPerDay + MakeTime h m s ms) := by
  unfold setHours
  simp only [LocalTime_utc, UTC, MakeDate, sub_zero]

/-- `getThisWeekDates` on UTC: the dates of midnight of the Sunday on or
before `now` and of the last millisecond of the Saturday after it. -/
theorem getThisWeekDates_utc_time (now : Int)
    (h1 : -8000000000000000 ≤ now) (h2 : now ≤ 8000000000000000) :
    getThisWeekDates 0 now = some
      { start := isoDate ((Day now - WeekDay now) * msPerDay),
        «end» := isoDate ((Day now - WeekDay now + 6) * msPerDay + 86399999) } := by
  have hw := WeekDay_range now
  have hday : Day now * 86400000 ≤ now ∧ now < Day now * 86400000 + 86400000 := by
    unfold Day msPerDay; omega
  have e1 : setDate 0 now (getDate 0 now - getDay 0 now) =
      some (now + -(WeekDay now) * msPerDay) := by
    have := setDate_utc now (-(WeekDay now))
    rw [show getDate 0 now + -WeekDay now = getDate 0 now - getDay 0 now by
      unfold getDay; rw [LocalTime_utc]; ring] at this
    rw [this]
    apply TimeClip_of_bounds <;> (unfold msPerDay; omega)
  have hd1 : Day (now + -(WeekDay now) * msPerDay) = Day now - WeekDay now := by
    unfold Day msPerDay; omega
  have e2 : setHours 0 (now + -(WeekDay now) * msPerDay) 0 0 0 0 =
      some ((Day now - WeekDay now) * msPerDay) := by
    rw [setHours_utc, hd1]
    simp only [MakeTime]; norm_num
    apply TimeClip_of_bounds <;> (unfold msPerDay; omega)
  have e3 : setDate 0 ((Day now - WeekDay now) * msPerDay)
      (getDate 0 ((Day now - WeekDay now) * msPerDay) + 6) =
      some ((Day now - WeekDay now) * msPerDay + 6 * msPerDay) := by
    rw [setDate_utc]
    apply TimeClip_of_bounds <;> (unfold msPerDay; omega)
  have hd3 : Day ((Day now - WeekDay now) * msPerDay + 6 * msPerDay) = Day now - WeekDay now + 6 := by
    unfold Day msPerDay; omega
  have e4 : setHours 0 ((Day now - WeekDay now) * msPerDay + 6 * msPerDay) 23 59 59 999 =
      some ((Day now - WeekDay now + 6) * msPerDay + 86399999) := by
    rw [setHours_utc, hd3]
    simp only [MakeTime]; norm_num
    apply TimeClip_of_bounds <;> (unfold msPerDay; omega)
  unfold getThisWeekDates
  simp only [e1, e2, e3, e4, Option.bind_eq_bind, Option.some_bind, Option.pure_def]

/-- A time value in a year from 999 to 10000 is far from the limits of
`TimeClip`. -/
theorem time_bounds_of_year (t : Int) (h1 : 999 ≤ YearFromTime t) (h2 : YearFromTime t ≤ 10000) :
    -8000000000000000 ≤ t ∧ t ≤ 8000000000000000 := by
  have hb := Day_bounds_of_year t 999 10000 h1 h2
  rw [DayFromYear_999, show (10000 : Int) + 1 = 10001 by rfl, DayFromYear_10001] at hb
  have hday : Day t * 86400000 ≤ t ∧ t < Day t * 86400000 + 86400000 := by
    unfold Day msPerDay; omega
  omega

theorem getThisWeekDates_utc (now : Int) (h1 : 1000 ≤ YearFromTime now)
    (h2 : YearFromTime ((Day now - WeekDay now + 6) * msPerDay) ≤ 9999) :
    getThisWeekDates 0 now = some
      { start := ymdOfDay (Day now - WeekDay now),
        «end» := ymdOfDay (Day now - WeekDay now + 6) } := by
  have hw := WeekDay_range now
  have hs6 : YearFromTime now ≤ YearFromTime ((Day now - WeekDay now + 6) * msPerDay) := by
    unfold YearFromTime
    rw [Day_mul_msPerDay]
    exact yearFromDay_mono (by omega)
  have hb := time_bounds_of_year now (by omega) (by omega)
  rw [getThisWeekDates_utc_time now hb.1 hb.2]
  -- the Sunday is at most six days before `now`, hence not before year 999
  have hlo := Day_bounds_of_year now 1000 9999 h1 (by omega)
  rw [DayFromYear_1000] at hlo
  have hsun0 : 999 ≤ YearFromTime ((Day now - WeekDay now) * msPerDay) := by
    unfold YearFromTime
    rw [Day_mul_msPerDay]
    have h999 : yearFromDay (DayFromYear 999) = 999 := by decide
    rw [← h999]
    apply yearFromDay_mono
    rw [DayFromYear_999]; omega
  have hsun1 : YearFromTime ((Day now - WeekDay now) * msPerDay) ≤ 9999 := by
    have : YearFromTime ((Day now - WeekDay now) * msPerDay) ≤ YearFromTime now := by
      unfold YearFromTime
      rw [Day_mul_msPerDay]
      exact yearFromDay_mono (by omega)
    omega
  have hDsat : Day ((Day now - WeekDay now + 6) * msPerDay + 86399999) =
      Day now - WeekDay now + 6 := Day_mul_add _ _ (by norm_num) (by norm_num)
  have hYsat : YearFromTime ((Day now - WeekDay now + 6) * msPerDay + 86399999) =
      YearFromTime ((Day now - WeekDay now + 6) * msPerDay) :=
    YearFromTime_of_Day (by rw [hDsat, Day_mul_msPerDay])
  rw [isoDate_eq_ymdOfDay _ (by omega) hsun1,
    isoDate_eq_ymdOfDay _ (by rw [hYsat]; omega) (by rw [hYsat]; exact h2),
    Day_mul_msPerDay, hDsat]

theorem monthFromDayWithinYear_mono (d1 d2 l : Int) (h : d1 ≤ d2) (hl : 0 ≤ l) :
    monthFromDayWithinYear d1 l ≤ monthFromDayWithinYear d2 l := by
  rcases monthFromDayWithinYear_cases d1 l with
    h1 | h1 | h1 | h1 | h1 | h1 | h1 | h1 | h1 | h1 | h1 | h1 <;>
  rcases monthFromDayWithinYear_cases d2 l with
    h2 | h2 | h2 | h2 | h2 | h2 | h2 | h2 | h2 | h2 | h2 | h2 <;> omega

theorem dateFromDayWithinYear_range (d l : Int) (h0 : 0 ≤ d) (h1 : d < 365 + l)
    (hl : l = 0 ∨ l = 1) :
    1 ≤ dateFromDayWithinYear (monthFromDayWithinYear d l) d l ∧
      dateFromDayWithinYear (monthFromDayWithinYear d l) d l ≤ 31 := by
  rcases monthFromDayWithinYear_cases d l with h | h | h | h | h | h | h | h | h | h | h | h <;>
    (simp only [h, dateFromDayWithinYear]; norm_num; omega)

theorem DateFromTime_range (t : Int) : 1 ≤ DateFromTime t ∧ DateFromTime t ≤ 31 := by
  have h := DayWithinYear_range t
  exact dateFromDayWithinYear_range _ _ h.1 h.2 (leapOf_cases _)

/-- Later days have later calendar dates. -/
theorem civil_le_of_Day_le (t1 t2 : Int) (h : Day t1 ≤ Day t2) :
    YearFromTime t1 < YearFromTime t2 ∨ (YearFromTime t1 = YearFromTime t2 ∧
      (MonthFromTime t1 < MonthFromTime t2 ∨
        (MonthFromTime t1 = MonthFromTime t2 ∧ DateFromTime t1 ≤ DateFromTime t2))) := by
  have hy : YearFromTime t1 ≤ YearFromTime t2 := yearFromDay_mono h
  rcases lt_or_eq_of_le hy with hlt | heq
  · exact Or.inl hlt
  right
  refine ⟨heq, ?_⟩
  have hw : DayWithinYear t1 ≤ DayWithinYear t2 := by
    unfold DayWithinYear; rw [heq]; omega
  have hm : MonthFromTime t1 ≤ MonthFromTime t2 := by
    unfold MonthFromTime InLeapYear
    rw [heq]
    exact monthFromDayWithinYear_mono _ _ _ hw (by have := leapOf_cases (YearFromTime t2); omega)
  rcases lt_or_eq_of_le hm with hlt | hmeq
  · exact Or.inl hlt
  right
  refine ⟨hmeq, ?_⟩
  have c1 := Day_eq_civil t1
  have c2 := Day_eq_civil t2
  rw [heq, hmeq] at c1
  omega

/-- Date strings of days in four-digit years are ordered as the days are. -/
theorem strLe_isoDate (t1 t2 : Int) (h : Day t1 ≤ Day t2) (h0 : 0 ≤ YearFromTime t1)
    (h1 : YearFromTime t2 ≤ 9999) :
    strLe (isoDate t1) (isoDate t2) = true := by
  have hy : YearFromTime t1 ≤ YearFromTime t2 := yearFromDay_mono h
  rw [isoDate_eq_ymd t1 h0 (by omega), isoDate_eq_ymd t2 (by omega) h1]
  have hm1 := MonthFromTime_range t1
  have hm2 := MonthFromTime_range t2
  have hd1 := DateFromTime_range t1
  have hd2 := DateFromTime_range t2
  apply strLe_ymd _ _ _ _ _ _ h0 h1 (by omega) (by omega) (by omega) (by omega)
  rcases civil_le_of_Day_le t1 t2 h with hc | ⟨hc, hc2 | ⟨hc2, hc3⟩⟩
  · exact Or.inl hc
  · exact Or.inr ⟨hc, Or.inl (by omega)⟩
  · exact Or.inr ⟨hc, Or.inr ⟨by omega, hc3⟩⟩

theorem isoDate_ne_nil (t : Int) : isoDate t ≠ [] := by
  rw [isoDate_eq]
  simp

theorem isoDate_isEmpty (t : Int) : (isoDate t).isEmpty = false := by
  cases h : isoDate t with
  | nil => exact absurd h (isoDate_ne_nil t)
  | cons a as => rfl

/-! ## The scan for literal dates -/

theorem matchesDateAt_eq (s : List Char) : matchesDateAt s = isDateShaped (s.take 10) := by
  rcases s with _ | ⟨a, _ | ⟨b, _ | ⟨c, _ | ⟨d, _ | ⟨e, _ | ⟨f, _ | ⟨g, _ | ⟨h, _ | ⟨i, _ | ⟨j, r⟩⟩⟩⟩⟩⟩⟩⟩⟩⟩ <;>
    simp [matchesDateAt, isDateShaped]

theorem dateAt_zero (s : List Char) : dateAt s 0 = matchesDateAt s := by
  rw [matchesDateAt_eq]; rfl

theorem dateAt_succ (c : Char) (cs : List Char) (i : Nat) : dateAt (c :: cs) (i + 1) = dateAt cs i :=
  rfl

theorem dateAt_nil (i : Nat) : dateAt [] i = false := by
  simp [dateAt, substringAt, isDateShaped]

theorem substringAt_succ (c : Char) (cs : List Char) (i : Nat) :
    substringAt (c :: cs) (i + 1) = substringAt cs i := rfl

theorem dateAt_drop (s : List Char) (k i : Nat) : dateAt (s.drop k) i = dateAt s (k + i) := by
  simp [dateAt, substringAt, List.drop_drop, Nat.add_comm]

theorem substringAt_drop (s : List Char) (k i : Nat) :
    substringAt (s.drop k) i = substringAt s (k + i) := by
  simp [substringAt, List.drop_drop, Nat.add_comm]

/-- After a match the scan goes on behind the skipped characters. -/
theorem matchDatesGo_skip (k : Nat) (s : List Char) :
    matchDatesGo k s = matchDatesGo 0 (s.drop k) := by
  induction k generalizing s with
  | zero => rfl
  | succ k ih =>
    cases s with
    | nil => simp [matchDatesGo]
    | cons c cs => simp [matchDatesGo, ih]

/-- Without a date-shaped substring the scan finds nothing. -/
theorem matchDatesGo_none (s : List Char) (h : ∀ i, dateAt s i = false) :
    matchDatesGo 0 s = [] := by
  induction s with
  | nil => rfl
  | cons c cs ih =>
    have h0 : matchesDateAt (c :: cs) = false := by rw [← dateAt_zero]; exact h 0
    simp only [matchDatesGo, h0, Bool.false_eq_true, ↓reduceIte]
    exact ih (fun i => by rw [← dateAt_succ c cs i]; exact h (i + 1))

/-- The scan reports the leftmost date-shaped substring first and goes on
behind it. -/
theorem matchDatesGo_first (s : List Char) (i : Nat) (hi : dateAt s i = true)
    (hmin : ∀ k, k < i → dateAt s k = false) :
    matchDatesGo 0 s = substringAt s i :: matchDatesGo 0 (s.drop (i + 10)) := by
  induction i generalizing s with
  | zero =>
    cases s with
    | nil => rw [dateAt_nil] at hi; exact absurd hi (by decide)
    | cons c cs =>
      have h0 : matchesDateAt (c :: cs) = true := by rw [← dateAt_zero]; exact hi
      simp only [matchDatesGo, h0, ↓reduceIte]
      rw [matchDatesGo_skip 9 cs]
      rfl
  | succ i ih =>
    cases s with
    | nil => rw [dateAt_nil] at hi; exact absurd hi (by decide)
    | cons c cs =>
      have h0 : matchesDateAt (c :: cs) = false := by
        rw [← dateAt_zero]; exact hmin 0 (Nat.succ_pos _)
      simp only [matchDatesGo, h0, Bool.false_eq_true, ↓reduceIte]
      rw [ih cs (by rw [← dateAt_succ c cs i]; exact hi)
        (fun k hk => by rw [← dateAt_succ c cs k]; exact hmin (k + 1) (by omega))]
      rfl

/-- The leftmost date-shaped substring, when there is one. -/
theorem exists_first_dateAt (s : List Char) (h : ∃ i, dateAt s i = true) :
    ∃ i, dateAt s i = true ∧ ∀ k, k < i → dateAt s k = false := by
  classical
  refine ⟨Nat.find h, Nat.find_spec h, fun k hk => ?_⟩
  have := Nat.find_min h hk
  simpa using this

/-- `parseCustomDateRange` finds the leftmost date-shaped substring and the
leftmost one behind it. -/
theorem parseCustomDateRange_of_first_two (s : List Char) (i j : Nat)
    (hi : dateAt s i = true) (himin : ∀ k, k < i → dateAt s k = false)
    (hij : i + 10 ≤ j) (hj : dateAt s j = true)
    (hjmin : ∀ k, i + 10 ≤ k → k < j → dateAt s k = false) :
    parseCustomDateRange s = some { start := substringAt s i, «end» := substringAt s j } := by
  have h1 := matchDatesGo_first s i hi himin
  have h2 := matchDatesGo_first (s.drop (i + 10)) (j - (i + 10))
    (by rw [dateAt_drop]; rw [show i + 10 + (j - (i + 10)) = j by omega]; exact hj)
    (fun k hk => by rw [dateAt_drop]; exact hjmin _ (by omega) (by omega))
  rw [substringAt_drop, show i + 10 + (j - (i + 10)) = j by omega] at h2
  unfold parseCustomDateRange matchDates
  rw [h1, h2]

/-- `parseCustomDateRange` is `null` exactly when there are no two
date-shaped substrings that do not overlap. -/
theorem parseCustomDateRange_eq_none_iff (s : List Char) :
    parseCustomDateRange s = none ↔
      ¬ ∃ i j, i + 10 ≤ j ∧ dateAt s i = true ∧ dateAt s j = true := by
  constructor
  · intro hnone ⟨i, j, hij, hi, hj⟩
    obtain ⟨i0, hi0, hi0min⟩ := exists_first_dateAt s ⟨i, hi⟩
    have hle : i0 ≤ i := by
      by_contra hlt
      have := hi0min i (by omega)
      rw [hi] at this; exact absurd this (by decide)
    have hex : ∃ m, dateAt (s.drop (i0 + 10)) m = true :=
      ⟨j - (i0 + 10), by rw [dateAt_drop, show i0 + 10 + (j - (i0 + 10)) = j by omega]; exact hj⟩
    obtain ⟨m, hm, hmmin⟩ := exists_first_dateAt _ hex
    have := parseCustomDateRange_of_first_two s i0 (i0 + 10 + m) hi0 hi0min (by omega)
      (by rw [← dateAt_drop]; exact hm)
      (fun k hk1 hk2 => by
        have := hmmin (k - (i0 + 10)) (by omega)
        rw [dateAt_drop, show i0 + 10 + (k - (i0 + 10)) = k by omega] at this
        exact this)
    rw [this] at hnone
    exact absurd hnone (by simp)
  · intro hno
    by_cases h1 : ∃ i, dateAt s i = true
    · obtain ⟨i0, hi0, hi0min⟩ := exists_first_dateAt s h1
      have hrest : ∀ m, dateAt (s.drop (i0 + 10)) m = false := by
        intro m
        by_contra hm
        rw [Bool.not_eq_false, dateAt_drop] at hm
        exact hno ⟨i0, i0 + 10 + m, by omega, hi0, hm⟩
      unfold parseCustomDateRange matchDates
      rw [matchDatesGo_first s i0 hi0 hi0min, matchDatesGo_none _ hrest]
    · have hall : ∀ i, dateAt s i = false := by
        intro i
        by_contra hi
        rw [Bool.not_eq_false] at hi
        exact h1 ⟨i, hi⟩
      unfold parseCustomDateRange matchDates
      rw [matchDatesGo_none s hall]

theorem length_of_isDateShaped (w : List Char) (h : isDateShaped w = true) : w.length = 10 := by
  rcases w with _ | ⟨a, _ | ⟨b, _ | ⟨c, _ | ⟨d, _ | ⟨e, _ | ⟨f, _ | ⟨g, _ | ⟨h, _ | ⟨i, _ | ⟨j, _ | ⟨k, r⟩⟩⟩⟩⟩⟩⟩⟩⟩⟩⟩ <;>
    simp_all [isDateShaped]

theorem isEmpty_of_dateAt (s : List Char) (i : Nat) (h : dateAt s i = true) :
    (substringAt s i).isEmpty = false := by
  have := length_of_isDateShaped _ h
  cases hs : substringAt s i with
  | nil => rw [hs] at this; simp at this
  | cons a as => rfl

/-! ## The date helpers in any zone: the two instants are in order -/

theorem TimeClip_eq_some {t v : Int} (h : TimeClip t = some v) : v = t := by
  unfold TimeClip at h
  split_ifs at h
  exact (Option.some.inj h).symm

theorem setDate_eq (tza t k : Int) :
    setDate tza t (getDate tza t + k) = TimeClip (t + k * msPerDay) := by
  unfold setDate getDate
  simp only [MakeDay_civil, UTC, MakeDate, TimeWithinDay, Day, LocalTime]
  congr 1
  have := Int.ediv_add_emod (t + tza) msPerDay
  have e : ((t + tza) / msPerDay + k) * msPerDay =
      msPerDay * ((t + tza) / msPerDay) + k * msPerDay := by ring
  rw [e]; omega

theorem getThisWeekDates_some (tza now : Int) (d : DateRange)
    (h : getThisWeekDates tza now = some d) :
    ∃ tvs tve, d = { start := isoDate tvs, «end» := isoDate tve } ∧ tvs ≤ tve := by
  unfold getThisWeekDates at h
  simp only [Option.bind_eq_bind, Option.bind_eq_some, Option.pure_def, Option.some.injEq] at h
  obtain ⟨a, _, b, hb, c, hc, e, he, hd⟩ := h
  refine ⟨b, e, hd.symm, ?_⟩
  have hc' := hc
  rw [setDate_eq] at hc'
  have hcv := TimeClip_eq_some hc'
  unfold setHours at hb he
  have hbv := TimeClip_eq_some hb
  have hev := TimeClip_eq_some he
  simp only [UTC, MakeDate, MakeTime, LocalTime, Day, msPerDay] at hbv hev hcv
  omega

theorem newDate_eq_some {tza y m d v : Int} (h : newDate tza y m d = some v) :
    v = MakeDay (if 0 ≤ y ∧ y ≤ 99 then 1900 + y else y) m d * msPerDay - tza := by
  unfold newDate at h
  have := TimeClip_eq_some h
  simp only [UTC, MakeDate, MakeTime] at this
  rw [this]; ring

theorem getThisMonthDates_some (tza now : Int) (d : DateRange)
    (h : getThisMonthDates tza now = some d) :
    ∃ tvs tve, d = { start := isoDate tvs, «end» := isoDate tve } ∧ tvs ≤ tve := by
  unfold getThisMonthDates at h
  simp only [Option.bind_eq_bind, Option.bind_eq_some, Option.pure_def, Option.some.injEq] at h
  obtain ⟨a, ha, b, hb, hd⟩ := h
  refine ⟨a, b, hd.symm, ?_⟩
  have hm := MonthFromTime_range (LocalTime tza now)
  rw [newDate_eq_some ha, newDate_eq_some hb]
  unfold getMonth
  generalize (if 0 ≤ getFullYear tza now ∧ getFullYear tza now ≤ 99 then
    1900 + getFullYear tza now else getFullYear tza now) = yr
  rw [MakeDay_of_month_range _ _ _ hm.1 hm.2, MakeDay_last_of_month _ _ hm.1 hm.2]
  have := daysInMonth_range yr (MonthFromTime (LocalTime tza now) + 1)
  unfold msPerDay
  omega

theorem getThisYearDates_some (tza now : Int) (d : DateRange)
    (h : getThisYearDates tza now = some d) :
    ∃ tvs tve, d = { start := isoDate tvs, «end» := isoDate tve } ∧ tvs ≤ tve := by
  unfold getThisYearDates at h
  simp only [Option.bind_eq_bind, Option.bind_eq_some, Option.pure_def, Option.some.injEq] at h
  obtain ⟨a, ha, b, hb, hd⟩ := h
  refine ⟨a, b, hd.symm, ?_⟩
  rw [newDate_eq_some ha, newDate_eq_some hb]
  generalize (if 0 ≤ getFullYear tza now ∧ getFullYear tza now ≤ 99 then
    1900 + getFullYear tza now else getFullYear tza now) = yr
  rw [MakeDay_of_month_range _ _ _ (by norm_num) (by norm_num),
    MakeDay_of_month_range _ _ _ (by norm_num) (by norm_num)]
  have hl := leapOf_cases yr
  simp only [daysBeforeMonth]
  norm_num
  unfold msPerDay
  omega

theorem getLastMonthDates_some (tza now : Int) (d : DateRange)
    (h : getLastMonthDates tza now = some d) :
    ∃ tvs tve, d = { start := isoDate tvs, «end» := isoDate tve } ∧ tvs ≤ tve := by
  unfold getLastMonthDates at h
  simp only [Option.bind_eq_bind, Option.bind_eq_some, Option.pure_def, Option.some.injEq] at h
  obtain ⟨a, ha, b, hb, hd⟩ := h
  refine ⟨a, b, hd.symm, ?_⟩
  have hm := MonthFromTime_range (LocalTime tza now)
  rw [newDate_eq_some ha, newDate_eq_some hb]
  unfold getMonth
  generalize (if 0 ≤ getFullYear tza now ∧ getFullYear tza now ≤ 99 then
    1900 + getFullYear tza now else getFullYear tza now) = yr
  rw [MakeDay_prev_month _ _ _ hm.1 hm.2, MakeDay_last_of_prev_month _ _ hm.1 hm.2]
  have := daysInMonth_range (if MonthFromTime (LocalTime tza now) = 0 then yr - 1 else yr)
    ((if MonthFromTime (LocalTime tza now) = 0 then 11 else
      MonthFromTime (LocalTime tza now) - 1) + 1)
  unfold msPerDay
  omega

theorem Day_mono {a b : Int} (h : a ≤ b) : Day a ≤ Day b := by
  unfold Day msPerDay; omega

/-! ## Routing of a message (claims C1, C2) -/

theorem isPayrollQuery_iff (s : List Char) :
    isPayrollQuery s = true ↔ ∃ k ∈ payrollOrTimeKeywords, k <:+: s := by
  simp only [isPayrollQuery, payrollOrTimeKeywords, List.any_cons, List.any_nil, Bool.or_false,
    Bool.or_eq_true, includes_iff, List.mem_cons, List.mem_singleton, exists_eq_or_imp,
    exists_eq_left, List.not_mem_nil, false_and, exists_false, or_false, or_assoc]

theorem isCustomerQuery_iff (s : List Char) :
    isCustomerQuery s = true ↔ ∃ k ∈ customerKeywords, k <:+: s := by
  simp only [isCustomerQuery, customerKeywords, List.any_cons, List.any_nil, Bool.or_false,
    Bool.or_eq_true, includes_iff, List.mem_cons, List.mem_singleton, exists_eq_or_imp,
    exists_eq_left, List.not_mem_nil, false_and, exists_false, or_false, or_assoc]

theorem handlePayrollQuery_not_customer (tza now : Int) (s : List Char) (a : Nat) :
    (∀ p cb, handlePayrollQuery tza now s a ≠ .ordersRead p cb) ∧
    handlePayrollQuery tza now s a ≠ .resolved missingCustomerResponse := by
  unfold handlePayrollQuery
  have hne : unrecognizedPeriodResponse ≠ missingCustomerResponse := by decide
  refine ⟨fun p cb => ?_, ?_⟩
  · split <;> try split
    all_goals simp
  · split <;> try split
    all_goals simp [hne]

/-- C1. For a message of ASCII characters, `processMessage` lower-cases the
message and routes it in a fixed order: to `handlePayrollQuery` when a
payroll or time keyword is a substring, otherwise to `handleCustomerQuery`
when a customer keyword is a substring, otherwise it answers with the fixed
capability summary and issues no store read. The four sample messages of the
specification are classified as Payroll, Payroll, CustomerOrders and
Unknown. -/
theorem processMessage_routes_by_keyword (tza now : Int) (m : List Char) (agentId : Nat)
    (_hm : isAscii m = true) :
    processMessage tza now m agentId =
      (match classifySpec m with
       | .Payroll => handlePayrollQuery tza now (toLowerCase m) agentId
       | .CustomerOrders => handleCustomerQuery (toLowerCase m)
       | .Unknown => .resolved defaultResponse) ∧
    classifySpec "payroll for this month".toList = .Payroll ∧
    classifySpec "what's my salary".toList = .Payroll ∧
    classifySpec "orders for John Smith".toList = .CustomerOrders ∧
    classifySpec "hello".toList = .Unknown := by
  refine ⟨?_, by decide, by decide, by decide, by decide⟩
  unfold processMessage classifySpec
  by_cases hp : ∃ k ∈ payrollOrTimeKeywords, k <:+: toLowerCase m
  · simp [hp, (isPayrollQuery_iff _).2 hp]
  · have hp2 : isPayrollQuery (toLowerCase m) = false := by
      rw [← Bool.not_eq_true, isPayrollQuery_iff]; exact hp
    by_cases hc : ∃ k ∈ customerKeywords, k <:+: toLowerCase m
    · simp [hp, hp2, hc, (isCustomerQuery_iff _).2 hc]
    · have hc2 : isCustomerQuery (toLowerCase m) = false := by
        rw [← Bool.not_eq_true, isCustomerQuery_iff]; exact hc
      simp [hp, hp2, hc, hc2]

/-- C1, witness: `Orders for John Smith` and `What's my SALARY` are ASCII
messages; the first is routed to `handleCustomerQuery` and the second to
`handlePayrollQuery`, both on the lower-cased text, and `Hello` gets the
capability summary. -/
theorem processMessage_routes_by_keyword_witness :
    processMessage 0 1704888000000 "Orders for John Smith".toList 7 =
      handleCustomerQuery "orders for john smith".toList ∧
    processMessage 0 1704888000000 "What's my SALARY".toList 7 =
      handlePayrollQuery 0 1704888000000 "what's my salary".toList 7 ∧
    processMessage 0 1704888000000 "Hello".toList 7 = .resolved defaultResponse :=
  ⟨(processMessage_routes_by_keyword 0 1704888000000 "Orders for John Smith".toList 7
      (by decide)).1,
    (processMessage_routes_by_keyword 0 1704888000000 "What's my SALARY".toList 7
      (by decide)).1,
    (processMessage_routes_by_keyword 0 1704888000000 "Hello".toList 7 (by decide)).1⟩

/-- C2. First match wins, Payroll before CustomerOrders: a message of ASCII
characters whose lower-cased text contains a payroll or time keyword and
also a customer keyword is handled by `handlePayrollQuery`; the outcome is
never an orders read nor the guidance of the customer handler. -/
theorem payroll_wins_over_customer (tza now : Int) (m : List Char) (agentId : Nat)
    (_hm : isAscii m = true)
    (hp : ∃ k ∈ payrollOrTimeKeywords, k <:+: toLowerCase m)
    (hc : ∃ k ∈ customerKeywords, k <:+: toLowerCase m) :
    classifySpec m = .Payroll ∧
    processMessage tza now m agentId = handlePayrollQuery tza now (toLowerCase m) agentId ∧
    (∀ p cb, processMessage tza now m agentId ≠ .ordersRead p cb) ∧
    processMessage tza now m agentId ≠ .resolved missingCustomerResponse := by
  have _ := hc
  have h : processMessage tza now m agentId =
      handlePayrollQuery tza now (toLowerCase m) agentId := by
    unfold processMessage
    simp [(isPayrollQuery_iff _).2 hp]
  rw [h]
  exact ⟨by simp [classifySpec, hp], rfl, handlePayrollQuery_not_customer tza now _ agentId⟩

/-- C2, witness: `show this month's orders` contains the time keyword
`month` and the customer keyword `order`, and is handled as Payroll. -/
theorem payroll_wins_over_customer_witness :
    "month".toList <:+: toLowerCase "show this month's orders".toList ∧
    "order".toList <:+: toLowerCase "show this month's orders".toList ∧
    classifySpec "show this month's orders".toList = .Payroll ∧
    processMessage 0 1704888000000 "show this month's orders".toList 7 =
      handlePayrollQuery 0 1704888000000 "show this month's orders".toList 7 :=
  ⟨by decide, by decide,
    (payroll_wins_over_customer 0 1704888000000 "show this month's orders".toList 7
      (by decide) (by decide) (by decide)).1,
    (payroll_wins_over_customer 0 1704888000000 "show this month's orders".toList 7
      (by decide) (by decide) (by decide)).2.1⟩

/-! ## The customer name (claims C3, C4) -/

/-- C3, the code at the failing inputs. The extraction takes the piece
between the first and the second occurrence of the trigger, not the whole
suffix: for `orders for forest hill` the code extracts the empty string (and
answers with the guidance for a missing name) where the suffix behind the
first `for` is `forest hill`; for `customer acme customer service` it
extracts `acme` where the suffix is `acme customer service`. -/
theorem extractCustomerName_stops_at_second_trigger :
    extractCustomerName "orders for forest hill".toList = [] ∧
    extractCustomerNameSpec "orders for forest hill".toList = "forest hill".toList ∧
    processMessage 0 1704888000000 "Orders for Forest Hill".toList 7 =
      .resolved missingCustomerResponse ∧
    extractCustomerName "customer acme customer service".toList = "acme".toList ∧
    extractCustomerNameSpec "customer acme customer service".toList =
      "acme customer service".toList :=
  ⟨by decide, by decide, by rfl, by decide, by decide⟩

/-- C4, counterexample: on the path actually used the name extracted from
`customer John Smith` is not `John Smith`. -/
theorem extracted_name_is_not_capitalised :
    extractCustomerName (toLowerCase "customer John Smith".toList) ≠ "John Smith".toList := by
  decide

/-- C4, amended. `processMessage` lower-cases the raw message before the
extraction: `customer John Smith` yields the name `john smith`,
`orders for Jane Doe` yields `jane doe` (both are handed to the orders read),
and for `hello` the extraction yields the empty string. -/
theorem extracted_name_is_lower_case :
    extractCustomerName (toLowerCase "customer John Smith".toList) = "john smith".toList ∧
    extractCustomerName (toLowerCase "orders for Jane Doe".toList) = "jane doe".toList ∧
    extractCustomerName (toLowerCase "hello".toList) = [] ∧
    processMessage 0 1704888000000 "customer John Smith".toList 7 =
      .ordersRead "%john smith%".toList (ordersCallback "john smith".toList) ∧
    processMessage 0 1704888000000 "orders for Jane Doe".toList 7 =
      .ordersRead "%jane doe%".toList (ordersCallback "jane doe".toList) :=
  ⟨by decide, by decide, by decide, by rfl, by rfl⟩

/-! ## The date helpers (claims C5, C6, C7) -/

theorem isDigit_digitChar (k : Nat) : isDigit (Nat.digitChar (k % 10)) = true := by
  have h := digitChar_toNat (k % 10) (Nat.mod_lt _ (by decide))
  have := Nat.mod_lt k (show 0 < 10 by decide)
  simp only [isDigit, h, Bool.and_eq_true, decide_eq_true_eq]
  omega

/-- Every string `ymd y m d` has the shape `dddd-dd-dd`. -/
theorem isDateShaped_ymd (y m d : Int) : isDateShaped (ymd y m d) = true := by
  simp [ymd, fixedDigits, isDateShaped, isDigit_digitChar]

theorem isDateShaped_ymdOfDay (d : Int) : isDateShaped (ymdOfDay d) = true :=
  isDateShaped_ymd _ _ _

theorem strLe_ymdOfDay (d1 d2 : Int) (h : d1 ≤ d2) (h0 : 0 ≤ YearFromTime (d1 * msPerDay))
    (h1 : YearFromTime (d2 * msPerDay) ≤ 9999) :
    strLe (ymdOfDay d1) (ymdOfDay d2) = true := by
  have hd : Day (d1 * msPerDay) ≤ Day (d2 * msPerDay) := by
    rw [Day_mul_msPerDay, Day_mul_msPerDay]; exact h
  have hy : YearFromTime (d1 * msPerDay) ≤ YearFromTime (d2 * msPerDay) := yearFromDay_mono hd
  have := strLe_isoDate (d1 * msPerDay) (d2 * msPerDay) hd h0 h1
  rwa [isoDate_eq_ymdOfDay _ h0 (by omega), isoDate_eq_ymdOfDay _ (by omega) h1,
    Day_mul_msPerDay, Day_mul_msPerDay] at this

/-- C5, counterexample. At 9999-12-31T23:59:59.999Z, a Friday of a
four-digit year, the week ends on Saturday 10000-01-01 and the end string is
`+010000-01-01`, which is not a string of the shape `YYYY-MM-DD`. -/
theorem getThisWeekDates_end_of_9999 :
    YearFromTime 253402300799999 = 9999 ∧ WeekDay 253402300799999 = 5 ∧
    getThisWeekDates 0 253402300799999 =
      some { start := "9999-12-26".toList, «end» := "+010000-01-01".toList } ∧
    isDateShaped "+010000-01-01".toList = false ∧
    ¬ (∀ now : Int, 1000 ≤ YearFromTime now → YearFromTime now ≤ 9999 →
        ∃ r, getThisWeekDates 0 now = some r ∧ isDateShaped r.start = true ∧
          isDateShaped r.end = true) := by
  refine ⟨by decide, by decide, by decide, by decide, ?_⟩
  intro h
  obtain ⟨r, hr, _, he⟩ := h 253402300799999 (by decide) (by decide)
  have h2 : getThisWeekDates 0 253402300799999 =
      some { start := "9999-12-26".toList, «end» := "+010000-01-01".toList } := by decide
  rw [h2] at hr
  have hr' := Option.some.inj hr
  rw [← hr'] at he
  exact absurd he (by decide)

/-- C5, amended. On UTC, for every `now` from year 1000 on whose week ends on
a Saturday of a four-digit year, `getThisWeekDates` returns the Sunday on or
before `now` as start and the Saturday six days later as end, both as
`YYYY-MM-DD`; hence start <= date(now) <= end, as days and as strings. -/
theorem getThisWeekDates_sunday_to_saturday (now : Int) (h1 : 1000 ≤ YearFromTime now)
    (h2 : YearFromTime ((Day now - WeekDay now + 6) * msPerDay) ≤ 9999) :
    getThisWeekDates 0 now = some
      { start := ymdOfDay (Day now - WeekDay now),
        «end» := ymdOfDay (Day now - WeekDay now + 6) } ∧
    WeekDay ((Day now - WeekDay now) * msPerDay) = 0 ∧
    WeekDay ((Day now - WeekDay now + 6) * msPerDay) = 6 ∧
    Day now - WeekDay now ≤ Day now ∧ Day now < Day now - WeekDay now + 7 ∧
    isDateShaped (ymdOfDay (Day now - WeekDay now)) = true ∧
    isDateShaped (ymdOfDay (Day now - WeekDay now + 6)) = true ∧
    strLe (ymdOfDay (Day now - WeekDay now)) (ymdOfDay (Day now)) = true ∧
    strLe (ymdOfDay (Day now)) (ymdOfDay (Day now - WeekDay now + 6)) = true := by
  have hw := WeekDay_range now
  have hYnow : YearFromTime (Day now * msPerDay) = YearFromTime now :=
    YearFromTime_of_Day (Day_mul_msPerDay _)
  have hlo := Day_bounds_of_year now 1000 (YearFromTime now) h1 (le_refl _)
  rw [DayFromYear_1000] at hlo
  have hsun0 : 0 ≤ YearFromTime ((Day now - WeekDay now) * msPerDay) := by
    unfold YearFromTime
    rw [Day_mul_msPerDay]
    have h999 : yearFromDay (DayFromYear 999) = 999 := by decide
    have := yearFromDay_mono (show DayFromYear 999 ≤ Day now - WeekDay now by
      rw [DayFromYear_999]; omega)
    omega
  have hnow1 : YearFromTime (Day now * msPerDay) ≤
      YearFromTime ((Day now - WeekDay now + 6) * msPerDay) := by
    unfold YearFromTime
    rw [Day_mul_msPerDay, Day_mul_msPerDay]
    exact yearFromDay_mono (by omega)
  refine ⟨getThisWeekDates_utc now h1 h2, ?_, ?_, by omega, by omega,
    isDateShaped_ymdOfDay _, isDateShaped_ymdOfDay _, ?_, ?_⟩
  · unfold WeekDay; rw [Day_mul_msPerDay]; omega
  · unfold WeekDay; rw [Day_mul_msPerDay]; omega
  · exact strLe_ymdOfDay _ _ (by omega) hsun0 (by omega)
  · exact strLe_ymdOfDay _ _ (by omega) (by omega) h2

/-- C5, witness of the amended claim: Wednesday 2024-01-10 at noon yields
Sunday 2024-01-07 and Saturday 2024-01-13. -/
theorem getThisWeekDates_sunday_to_saturday_witness :
    WeekDay 1704888000000 = 3 ∧
    ymdOfDay (Day 1704888000000) = "2024-01-10".toList ∧
    ymdOfDay (Day 1704888000000 - WeekDay 1704888000000) = "2024-01-07".toList ∧
    ymdOfDay (Day 1704888000000 - WeekDay 1704888000000 + 6) = "2024-01-13".toList ∧
    getThisWeekDates 0 1704888000000 = some
      { start := ymdOfDay (Day 1704888000000 - WeekDay 1704888000000),
        «end» := ymdOfDay (Day 1704888000000 - WeekDay 1704888000000 + 6) } :=
  ⟨by decide, by decide, by decide, by decide,
    (getThisWeekDates_sunday_to_saturday 1704888000000 (by decide) (by decide)).1⟩

/-- C6. On UTC, for every `now` of a four-digit year `getLastMonthDates`
returns the first and the last day of the month before the month of `now`;
in January of year `Y` that is `(Y-1)-12-01` to `(Y-1)-12-31`, and in March
the end is February 29 in a leap year and February 28 otherwise. -/
theorem getLastMonthDates_previous_month (now : Int) (h1 : 1000 ≤ YearFromTime now)
    (h2 : YearFromTime now ≤ 9999) :
    getLastMonthDates 0 now = some
      { start := ymd (if MonthFromTime now = 0 then YearFromTime now - 1 else YearFromTime now)
          (if MonthFromTime now = 0 then 12 else MonthFromTime now) 1,
        «end» := ymd (if MonthFromTime now = 0 then YearFromTime now - 1 else YearFromTime now)
          (if MonthFromTime now = 0 then 12 else MonthFromTime now)
          (daysInMonth (if MonthFromTime now = 0 then YearFromTime now - 1 else YearFromTime now)
            (if MonthFromTime now = 0 then 12 else MonthFromTime now)) } ∧
    (MonthFromTime now = 0 → getLastMonthDates 0 now = some
      { start := ymd (YearFromTime now - 1) 12 1, «end» := ymd (YearFromTime now - 1) 12 31 }) ∧
    (MonthFromTime now = 2 → getLastMonthDates 0 now = some
      { start := ymd (YearFromTime now) 2 1,
        «end» := ymd (YearFromTime now) 2 (if isLeapYear (YearFromTime now) then 29 else 28) }) := by
  obtain ⟨_, _, _, _, _, h⟩ := getLastMonthDates_utc now h1 h2
  refine ⟨h, fun h0 => ?_, fun hm => ?_⟩
  · rw [h]; simp [h0, daysInMonth]
  · rw [h]; simp [hm, daysInMonth]

/-- C6, witness: on 2024-01-10 the last month is 2023-12-01 to 2023-12-31,
and on 2024-03-15 it ends on the leap day 2024-02-29. -/
theorem getLastMonthDates_previous_month_witness :
    MonthFromTime 1704888000000 = 0 ∧
    getLastMonthDates 0 1704888000000 =
      some { start := "2023-12-01".toList, «end» := "2023-12-31".toList } ∧
    MonthFromTime 1710504000000 = 2 ∧
    getLastMonthDates 0 1710504000000 =
      some { start := "2024-02-01".toList, «end» := "2024-02-29".toList } :=
  ⟨by decide,
    ((getLastMonthDates_previous_month 1704888000000 (by decide) (by decide)).2.1
      (by decide)).trans (by decide),
    by decide,
    ((getLastMonthDates_previous_month 1710504000000 (by decide) (by decide)).2.2
      (by decide)).trans (by decide)⟩

/-- C7. On UTC, for every `now` of a four-digit year `getThisMonthDates`
returns day 1 of the month of `now` and the last day of that month, 28, 29,
30 or 31 by the Gregorian calendar, also in December. -/
theorem getThisMonthDates_first_to_last (now : Int) (h1 : 1000 ≤ YearFromTime now)
    (h2 : YearFromTime now ≤ 9999) :
    getThisMonthDates 0 now = some
      { start := ymd (YearFromTime now) (MonthFromTime now + 1) 1,
        «end» := ymd (YearFromTime now) (MonthFromTime now + 1)
          (daysInMonth (YearFromTime now) (MonthFromTime now + 1)) } ∧
    (MonthFromTime now = 11 → getThisMonthDates 0 now = some
      { start := ymd (YearFromTime now) 12 1, «end» := ymd (YearFromTime now) 12 31 }) := by
  obtain ⟨_, _, _, _, _, h⟩ := getThisMonthDates_utc now h1 h2
  refine ⟨h, fun hm => ?_⟩
  rw [h]; simp [hm, daysInMonth]

/-- C7, witness: on 2023-12-15 the month is 2023-12-01 to 2023-12-31, on
2024-02-10 (leap year) it is 2024-02-01 to 2024-02-29. -/
theorem getThisMonthDates_first_to_last_witness :
    getThisMonthDates 0 1702641600000 =
      some { start := "2023-12-01".toList, «end» := "2023-12-31".toList } ∧
    getThisMonthDates 0 1707566400000 =
      some { start := "2024-02-01".toList, «end» := "2024-02-29".toList } :=
  ⟨((getThisMonthDates_first_to_last 1702641600000 (by decide) (by decide)).2
      (by decide)).trans (by decide),
    (getThisMonthDates_first_to_last 1707566400000 (by decide) (by decide)).1.trans (by decide)⟩

/-! ## Period resolution (claims C8, C9, C10) -/

theorem isEmpty_of_isDateShaped (w : List Char) (h : isDateShaped w = true) :
    w.isEmpty = false := by
  have := length_of_isDateShaped _ h
  cases w with
  | nil => simp at this
  | cons a as => rfl

/-- The named branches of the period parsing, in their order. -/
theorem resolvePeriod_named (tza now : Int) (s : List Char)
    (h : includes s "this week".toList = true ∨ includes s "this month".toList = true ∨
      includes s "this year".toList = true ∨ includes s "last month".toList = true) :
    (includes s "this week".toList = true ∧
      resolvePeriod tza now s = Resolved.named (getThisWeekDates tza now) "This Week".toList) ∨
    (includes s "this week".toList = false ∧
      resolvePeriod tza now s = Resolved.named (getThisMonthDates tza now) "This Month".toList) ∨
    (includes s "this week".toList = false ∧
      resolvePeriod tza now s = Resolved.named (getThisYearDates tza now) "This Year".toList) ∨
    (includes s "this week".toList = false ∧
      resolvePeriod tza now s = Resolved.named (getLastMonthDates tza now) "Last Month".toList) := by
  unfold resolvePeriod
  by_cases h1 : includes s "this week".toList = true
  · left; exact ⟨h1, by rw [if_pos h1]⟩
  right
  rw [if_neg h1]
  have h1' : includes s "this week".toList = false := by simpa using h1
  by_cases h2 : includes s "this month".toList = true
  · left; exact ⟨h1', by rw [if_pos h2]⟩
  right
  rw [if_neg h2]
  by_cases h3 : includes s "this year".toList = true
  · left; exact ⟨h1', by rw [if_pos h3]⟩
  right
  rw [if_neg h3]
  have h4 : includes s "last month".toList = true := by
    rcases h with h | h | h | h
    · exact absurd h h1
    · exact absurd h h2
    · exact absurd h h3
    · exact h
  exact ⟨h1', by rw [if_pos h4]⟩

/-- What `handlePayrollQuery` does with a named period. -/
theorem handlePayrollQuery_of_named (tza now : Int) (s : List Char) (a : Nat)
    (dates : Option DateRange) (label : List Char)
    (h : resolvePeriod tza now s = Resolved.named dates label) :
    (dates = none ∧ handlePayrollQuery tza now s a = .rangeError) ∨
    ∃ d, dates = some d ∧ handlePayrollQuery tza now s a =
      (if d.start.isEmpty || d.end.isEmpty then .resolved unrecognizedPeriodResponse
       else .payrollRead a d.start d.end (payrollCallback label d.start d.end)) := by
  unfold handlePayrollQuery
  rw [h]
  cases dates with
  | none => left; exact ⟨rfl, rfl⟩
  | some d => right; exact ⟨d, rfl, rfl⟩

/-- In any zone a named period resolves to the dates of two instants in
order, or a `RangeError` is thrown. -/
theorem handlePayrollQuery_named_instants (tza now : Int) (s : List Char) (a : Nat)
    (h : includes s "this week".toList = true ∨ includes s "this month".toList = true ∨
      includes s "this year".toList = true ∨ includes s "last month".toList = true) :
    handlePayrollQuery tza now s a = .rangeError ∨
    ∃ tvs tve label, tvs ≤ tve ∧ handlePayrollQuery tza now s a =
      .payrollRead a (isoDate tvs) (isoDate tve)
        (payrollCallback label (isoDate tvs) (isoDate tve)) := by
  have key : ∀ (dates : Option DateRange) (label : List Char),
      resolvePeriod tza now s = Resolved.named dates label →
      (∀ d, dates = some d → ∃ tvs tve, d = { start := isoDate tvs, «end» := isoDate tve } ∧
        tvs ≤ tve) →
      handlePayrollQuery tza now s a = .rangeError ∨
      ∃ tvs tve label, tvs ≤ tve ∧ handlePayrollQuery tza now s a =
        .payrollRead a (isoDate tvs) (isoDate tve)
          (payrollCallback label (isoDate tvs) (isoDate tve)) := by
    intro dates label hr hd
    rcases handlePayrollQuery_of_named tza now s a dates label hr with ⟨_, h0⟩ | ⟨d, hd1, h1⟩
    · exact Or.inl h0
    · obtain ⟨tvs, tve, hde, hle⟩ := hd d hd1
      right
      refine ⟨tvs, tve, label, hle, ?_⟩
      rw [h1, hde]
      simp [isoDate_isEmpty]
  rcases resolvePeriod_named tza now s h with ⟨_, hr⟩ | ⟨_, hr⟩ | ⟨_, hr⟩ | ⟨_, hr⟩
  · exact key _ _ hr (fun d hd => getThisWeekDates_some tza now d hd)
  · exact key _ _ hr (fun d hd => getThisMonthDates_some tza now d hd)
  · exact key _ _ hr (fun d hd => getThisYearDates_some tza now d hd)
  · exact key _ _ hr (fun d hd => getLastMonthDates_some tza now d hd)

/-- On UTC and in a four-digit year a named period resolves to two strings
`YYYY-MM-DD` in lexicographic order, the week provided that its Saturday is
in a four-digit year. -/
theorem handlePayrollQuery_named_utc (now : Int) (s : List Char) (a : Nat)
    (h : includes s "this week".toList = true ∨ includes s "this month".toList = true ∨
      includes s "this year".toList = true ∨ includes s "last month".toList = true)
    (h1 : 1000 ≤ YearFromTime now) (h2 : YearFromTime now ≤ 9999)
    (hw : includes s "this week".toList = true →
      YearFromTime ((Day now - WeekDay now + 6) * msPerDay) ≤ 9999) :
    ∃ start stop label, handlePayrollQuery 0 now s a =
        .payrollRead a start stop (payrollCallback label start stop) ∧
      isDateShaped start = true ∧ isDateShaped stop = true ∧ strLe start stop = true := by
  have key : ∀ (st en label : List Char),
      resolvePeriod 0 now s = Resolved.named (some { start := st, «end» := en }) label →
      isDateShaped st = true → isDateShaped en = true → strLe st en = true →
      ∃ start stop label, handlePayrollQuery 0 now s a =
          .payrollRead a start stop (payrollCallback label start stop) ∧
        isDateShaped start = true ∧ isDateShaped stop = true ∧ strLe start stop = true := by
    intro st en label hr hs he hle
    refine ⟨st, en, label, ?_, hs, he, hle⟩
    unfold handlePayrollQuery
    rw [hr]
    simp [Resolved.named, isEmpty_of_isDateShaped _ hs, isEmpty_of_isDateShaped _ he]
  have hm := MonthFromTime_range now
  rcases resolvePeriod_named 0 now s h with ⟨hwk, hr⟩ | ⟨_, hr⟩ | ⟨_, hr⟩ | ⟨_, hr⟩
  · have hsat := hw hwk
    rw [getThisWeekDates_utc now h1 hsat] at hr
    refine key _ _ _ hr (isDateShaped_ymdOfDay _) (isDateShaped_ymdOfDay _) ?_
    have hwd := WeekDay_range now
    have hlo := Day_bounds_of_year now 1000 (YearFromTime now) h1 (le_refl _)
    rw [DayFromYear_1000] at hlo
    have hsun0 : 0 ≤ YearFromTime ((Day now - WeekDay now) * msPerDay) := by
      unfold YearFromTime
      rw [Day_mul_msPerDay]
      have h999 : yearFromDay (DayFromYear 999) = 999 := by decide
      have := yearFromDay_mono (show DayFromYear 999 ≤ Day now - WeekDay now by
        rw [DayFromYear_999]; omega)
      omega
    exact strLe_ymdOfDay _ _ (by omega) hsun0 hsat
  · obtain ⟨_, _, _, _, _, hg⟩ := getThisMonthDates_utc now h1 h2
    rw [hg] at hr
    have hdim := daysInMonth_range (YearFromTime now) (MonthFromTime now + 1)
    exact key _ _ _ hr (isDateShaped_ymd _ _ _) (isDateShaped_ymd _ _ _)
      (strLe_ymd _ _ _ _ _ _ (by omega) h2 (by omega) (by omega) (by norm_num) (by omega)
        (Or.inr ⟨rfl, Or.inr ⟨rfl, by omega⟩⟩))
  · obtain ⟨_, _, _, _, _, hg⟩ := getThisYearDates_utc now h1 h2
    rw [hg] at hr
    exact key _ _ _ hr (isDateShaped_ymd _ _ _) (isDateShaped_ymd _ _ _)
      (strLe_ymd _ _ _ _ _ _ (by omega) h2 (by norm_num) (by norm_num) (by norm_num)
        (by norm_num) (Or.inr ⟨rfl, Or.inl (by norm_num)⟩))
  · obtain ⟨_, _, _, _, _, hg⟩ := getLastMonthDates_utc now h1 h2
    rw [hg] at hr
    have hdim := daysInMonth_range
      (if MonthFromTime now = 0 then YearFromTime now - 1 else YearFromTime now)
      (if MonthFromTime now = 0 then 12 else MonthFromTime now)
    exact key _ _ _ hr (isDateShaped_ymd _ _ _) (isDateShaped_ymd _ _ _)
      (strLe_ymd _ _ _ _ _ _ (by split_ifs <;> omega) (by split_ifs <;> omega)
        (by split_ifs <;> omega) (by split_ifs <;> omega) (by norm_num) (by omega)
        (Or.inr ⟨rfl, Or.inr ⟨rfl, by omega⟩⟩))

/-- C8, counterexample. On UTC at 9999-12-31T23:59:59.999Z the message
`payroll this week` resolves to start `9999-12-26` and end `+010000-01-01`,
and the start string is not `<=` the end string. -/
theorem this_week_range_out_of_order :
    YearFromTime 253402300799999 = 9999 ∧
    includes "payroll this week".toList "this week".toList = true ∧
    handlePayrollQuery 0 253402300799999 "payroll this week".toList 7 =
      .payrollRead 7 "9999-12-26".toList "+010000-01-01".toList
        (payrollCallback "This Week".toList "9999-12-26".toList "+010000-01-01".toList) ∧
    strLe "9999-12-26".toList "+010000-01-01".toList = false :=
  ⟨by decide, by decide, by rfl, by decide⟩

/-- C8, amended. For a lower-cased message that contains one of the four
named period phrases: in any zone `handlePayrollQuery` resolves the dates of
two instants in order (or a `RangeError` is thrown), so start <= end as
calendar dates, and the two strings compare start <= end whenever both years
have four digits; on UTC, for `now` of a four-digit year (for `this week`:
with the Saturday of the week in a four-digit year) the resolved strings are
`YYYY-MM-DD` and compare start <= end. -/
theorem named_period_start_le_end (tza now : Int) (s : List Char) (a : Nat)
    (h : includes s "this week".toList = true ∨ includes s "this month".toList = true ∨
      includes s "this year".toList = true ∨ includes s "last month".toList = true) :
    (handlePayrollQuery tza now s a = .rangeError ∨
      ∃ tvs tve label, handlePayrollQuery tza now s a =
          .payrollRead a (isoDate tvs) (isoDate tve)
            (payrollCallback label (isoDate tvs) (isoDate tve)) ∧
        Day tvs ≤ Day tve ∧
        (0 ≤ YearFromTime tvs → YearFromTime tve ≤ 9999 →
          strLe (isoDate tvs) (isoDate tve) = true)) ∧
    (tza = 0 → 1000 ≤ YearFromTime now → YearFromTime now ≤ 9999 →
      (includes s "this week".toList = true →
        YearFromTime ((Day now - WeekDay now + 6) * msPerDay) ≤ 9999) →
      ∃ start stop label, handlePayrollQuery tza now s a =
          .payrollRead a start stop (payrollCallback label start stop) ∧
        isDateShaped start = true ∧ isDateShaped stop = true ∧ strLe start stop = true) := by
  constructor
  · rcases handlePayrollQuery_named_instants tza now s a h with h0 | ⟨tvs, tve, label, hle, hq⟩
    · exact Or.inl h0
    · exact Or.inr ⟨tvs, tve, label, hq, Day_mono hle,
        fun h0 h1 => strLe_isoDate tvs tve (Day_mono hle) h0 h1⟩
  · intro htz h1 h2 hw
    subst htz
    exact handlePayrollQuery_named_utc now s a h h1 h2 hw

/-- C8, witness of the amended claim: `payroll this month` on 2024-01-10,
UTC, resolves to `2024-01-01` and `2024-01-31`, in order. -/
theorem named_period_start_le_end_witness :
    handlePayrollQuery 0 1704888000000 "payroll this month".toList 7 =
      .payrollRead 7 "2024-01-01".toList "2024-01-31".toList
        (payrollCallback "This Month".toList "2024-01-01".toList "2024-01-31".toList) ∧
    ∃ start stop label, handlePayrollQuery 0 1704888000000 "payroll this month".toList 7 =
        .payrollRead 7 start stop (payrollCallback label start stop) ∧
      isDateShaped start = true ∧ isDateShaped stop = true ∧ strLe start stop = true :=
  ⟨by rfl, (named_period_start_le_end 0 1704888000000 "payroll this month".toList 7
    (by decide)).2 rfl (by decide) (by decide) (by decide)⟩

/-- Two date-shaped substrings that do not overlap give the leftmost one
and the leftmost one behind it. -/
theorem exists_first_two_dateAt (s : List Char)
    (h : ∃ i j, i + 10 ≤ j ∧ dateAt s i = true ∧ dateAt s j = true) :
    ∃ i j, dateAt s i = true ∧ (∀ k, k < i → dateAt s k = false) ∧ i + 10 ≤ j ∧
      dateAt s j = true ∧ (∀ k, i + 10 ≤ k → k < j → dateAt s k = false) := by
  obtain ⟨i, j, hij, hi, hj⟩ := h
  obtain ⟨i0, hi0, hi0min⟩ := exists_first_dateAt s ⟨i, hi⟩
  have hle : i0 ≤ i := by
    by_contra hlt
    have := hi0min i (by omega)
    rw [hi] at this; exact absurd this (by decide)
  have hex : ∃ m, dateAt (s.drop (i0 + 10)) m = true :=
    ⟨j - (i0 + 10), by rw [dateAt_drop, show i0 + 10 + (j - (i0 + 10)) = j by omega]; exact hj⟩
  obtain ⟨m, hm, hmmin⟩ := exists_first_dateAt _ hex
  refine ⟨i0, i0 + 10 + m, hi0, hi0min, by omega, by rw [← dateAt_drop]; exact hm, ?_⟩
  intro k hk1 hk2
  have := hmmin (k - (i0 + 10)) (by omega)
  rw [dateAt_drop, show i0 + 10 + (k - (i0 + 10)) = k by omega] at this
  exact this

/-- The period parsing when no named phrase occurs. -/
theorem resolvePeriod_unnamed (tza now : Int) (s : List Char)
    (h1 : includes s "this week".toList = false) (h2 : includes s "this month".toList = false)
    (h3 : includes s "this year".toList = false) (h4 : includes s "last month".toList = false) :
    resolvePeriod tza now s =
      if includes s "between".toList || includes s "from".toList || includes s "to".toList then
        match parseCustomDateRange s with
        | some dates =>
          .range dates.start dates.end
            ("Custom Period (".toList ++ dates.start ++ " to ".toList ++ dates.end ++ [')'])
        | none => .unset
      else .unset := by
  unfold resolvePeriod
  rw [if_neg (by rw [h1]; decide), if_neg (by rw [h2]; decide), if_neg (by rw [h3]; decide),
    if_neg (by rw [h4]; decide)]

/-- C9. Custom range. `parseCustomDateRange` is `null` exactly when the
message has no two date-shaped substrings `dddd-dd-dd` that do not overlap;
and for a lower-cased message without a named period phrase, with one of
`between`, `from`, `to`, and with two such substrings, `handlePayrollQuery`
reads the store with start = the leftmost date-shaped substring and end =
the leftmost one behind it, both verbatim: no order check, no swap, no
calendar check. -/
theorem custom_range_takes_first_two_dates (tza now : Int) (s : List Char) (a : Nat) :
    (parseCustomDateRange s = none ↔
      ¬ ∃ i j, i + 10 ≤ j ∧ dateAt s i = true ∧ dateAt s j = true) ∧
    (includes s "this week".toList = false → includes s "this month".toList = false →
      includes s "this year".toList = false → includes s "last month".toList = false →
      (includes s "between".toList = true ∨ includes s "from".toList = true ∨
        includes s "to".toList = true) →
      (∃ i j, i + 10 ≤ j ∧ dateAt s i = true ∧ dateAt s j = true) →
      ∃ i j, dateAt s i = true ∧ (∀ k, k < i → dateAt s k = false) ∧ i + 10 ≤ j ∧
        dateAt s j = true ∧ (∀ k, i + 10 ≤ k → k < j → dateAt s k = false) ∧
        parseCustomDateRange s =
          some { start := substringAt s i, «end» := substringAt s j } ∧
        handlePayrollQuery tza now s a =
          .payrollRead a (substringAt s i) (substringAt s j)
            (payrollCallback
              ("Custom Period (".toList ++ substringAt s i ++ " to ".toList ++
                substringAt s j ++ [')'])
              (substringAt s i) (substringAt s j))) := by
  refine ⟨parseCustomDateRange_eq_none_iff s, ?_⟩
  intro h1 h2 h3 h4 ht hex
  obtain ⟨i, j, hi, himin, hij, hj, hjmin⟩ := exists_first_two_dateAt s hex
  have hp := parseCustomDateRange_of_first_two s i j hi himin hij hj hjmin
  refine ⟨i, j, hi, himin, hij, hj, hjmin, hp, ?_⟩
  have htb : (includes s "between".toList || includes s "from".toList ||
      includes s "to".toList) = true := by
    rcases ht with h | h | h <;> rw [h] <;> simp
  unfold handlePayrollQuery
  rw [resolvePeriod_unnamed tza now s h1 h2 h3 h4, if_pos htb, hp]
  simp [isEmpty_of_dateAt s i hi, isEmpty_of_dateAt s j hj]

/-- C9, witness: `from 2024-13-45 to 2023-01-01` resolves to start
`2024-13-45` and end `2023-01-01`, as they stand. -/
theorem custom_range_takes_first_two_dates_witness :
    handlePayrollQuery 0 1704888000000 "from 2024-13-45 to 2023-01-01".toList 7 =
      .payrollRead 7 "2024-13-45".toList "2023-01-01".toList
        (payrollCallback "Custom Period (2024-13-45 to 2023-01-01)".toList
          "2024-13-45".toList "2023-01-01".toList) ∧
    strLe "2024-13-45".toList "2023-01-01".toList = false ∧
    ∃ i j, dateAt "from 2024-13-45 to 2023-01-01".toList i = true ∧
      (∀ k, k < i → dateAt "from 2024-13-45 to 2023-01-01".toList k = false) ∧ i + 10 ≤ j ∧
      dateAt "from 2024-13-45 to 2023-01-01".toList j = true ∧
      (∀ k, i + 10 ≤ k → k < j → dateAt "from 2024-13-45 to 2023-01-01".toList k = false) ∧
      parseCustomDateRange "from 2024-13-45 to 2023-01-01".toList =
        some { start := substringAt "from 2024-13-45 to 2023-01-01".toList i,
               «end» := substringAt "from 2024-13-45 to 2023-01-01".toList j } ∧
      handlePayrollQuery 0 1704888000000 "from 2024-13-45 to 2023-01-01".toList 7 =
        .payrollRead 7 (substringAt "from 2024-13-45 to 2023-01-01".toList i)
          (substringAt "from 2024-13-45 to 2023-01-01".toList j)
          (payrollCallback
            ("Custom Period (".toList ++ substringAt "from 2024-13-45 to 2023-01-01".toList i ++
              " to ".toList ++ substringAt "from 2024-13-45 to 2023-01-01".toList j ++ [')'])
            (substringAt "from 2024-13-45 to 2023-01-01".toList i)
            (substringAt "from 2024-13-45 to 2023-01-01".toList j)) :=
  ⟨by rfl, by decide,
    (custom_range_takes_first_two_dates 0 1704888000000
      "from 2024-13-45 to 2023-01-01".toList 7).2 (by decide) (by decide) (by decide)
      (by decide) (by decide) ⟨5, 19, by decide, by decide, by decide⟩⟩

/-- C10. For a Payroll-classified lower-cased message `handlePayrollQuery`
answers at once, without a store read, with the guidance for an
unrecognized period exactly when the message contains none of the four
named phrases and the custom range yields nothing: none of `between`,
`from`, `to` occurs, or there are no two date-shaped substrings that do not
overlap. In particular it does so whenever no named phrase matches and fewer
than two literal dates are present. -/
theorem unrecognized_period_iff (tza now : Int) (s : List Char) (a : Nat)
    (hp : isPayrollQuery s = true) :
    (handlePayrollQuery tza now s a = .resolved unrecognizedPeriodResponse ↔
      (includes s "this week".toList = false ∧ includes s "this month".toList = false ∧
        includes s "this year".toList = false ∧ includes s "last month".toList = false) ∧
      ((includes s "between".toList = false ∧ includes s "from".toList = false ∧
          includes s "to".toList = false) ∨
        ¬ ∃ i j, i + 10 ≤ j ∧ dateAt s i = true ∧ dateAt s j = true)) ∧
    (includes s "this week".toList = false → includes s "this month".toList = false →
      includes s "this year".toList = false → includes s "last month".toList = false →
      (¬ ∃ i j, i + 10 ≤ j ∧ dateAt s i = true ∧ dateAt s j = true) →
      handlePayrollQuery tza now s a = .resolved unrecognizedPeriodResponse) := by
  have _ := hp
  have main : handlePayrollQuery tza now s a = .resolved unrecognizedPeriodResponse ↔
      (includes s "this week".toList = false ∧ includes s "this month".toList = false ∧
        includes s "this year".toList = false ∧ includes s "last month".toList = false) ∧
      ((includes s "between".toList = false ∧ includes s "from".toList = false ∧
          includes s "to".toList = false) ∨
        ¬ ∃ i j, i + 10 ≤ j ∧ dateAt s i = true ∧ dateAt s j = true) := by
    by_cases hn : includes s "this week".toList = true ∨ includes s "this month".toList = true ∨
        includes s "this year".toList = true ∨ includes s "last month".toList = true
    · constructor
      · intro hq
        rcases handlePayrollQuery_named_instants tza now s a hn with h0 | ⟨_, _, _, _, h0⟩
        · rw [h0] at hq; exact absurd hq (by simp)
        · rw [h0] at hq; exact absurd hq (by simp)
      · rintro ⟨⟨h1, h2, h3, h4⟩, _⟩
        rcases hn with h | h | h | h
        · rw [h1] at h; exact absurd h (by decide)
        · rw [h2] at h; exact absurd h (by decide)
        · rw [h3] at h; exact absurd h (by decide)
        · rw [h4] at h; exact absurd h (by decide)
    · have h1 : includes s "this week".toList = false := by
        by_contra h; exact hn (Or.inl (by simpa using h))
      have h2 : includes s "this month".toList = false := by
        by_contra h; exact hn (Or.inr (Or.inl (by simpa using h)))
      have h3 : includes s "this year".toList = false := by
        by_contra h; exact hn (Or.inr (Or.inr (Or.inl (by simpa using h))))
      have h4 : includes s "last month".toList = false := by
        by_contra h; exact hn (Or.inr (Or.inr (Or.inr (by simpa using h))))
      have hr := resolvePeriod_unnamed tza now s h1 h2 h3 h4
      by_cases ht : (includes s "between".toList || includes s "from".toList ||
          includes s "to".toList) = true
      · rw [if_pos ht] at hr
        have ht' : ¬ (includes s "between".toList = false ∧ includes s "from".toList = false ∧
            includes s "to".toList = false) := by
          rintro ⟨e1, e2, e3⟩
          rw [e1, e2, e3] at ht
          exact absurd ht (by decide)
        by_cases hex : ∃ i j, i + 10 ≤ j ∧ dateAt s i = true ∧ dateAt s j = true
        · obtain ⟨i, j, hi, himin, hij, hj, hjmin⟩ := exists_first_two_dateAt s hex
          have hpc := parseCustomDateRange_of_first_two s i j hi himin hij hj hjmin
          rw [hpc] at hr
          constructor
          · intro hq
            unfold handlePayrollQuery at hq
            rw [hr] at hq
            simp [isEmpty_of_dateAt s i hi, isEmpty_of_dateAt s j hj] at hq
          · rintro ⟨_, h | h⟩
            · exact absurd h ht'
            · exact absurd hex h
        · have hpc := (parseCustomDateRange_eq_none_iff s).2 hex
          rw [hpc] at hr
          constructor
          · intro _
            exact ⟨⟨h1, h2, h3, h4⟩, Or.inr hex⟩
          · intro _
            unfold handlePayrollQuery
            rw [hr]
      · rw [if_neg ht] at hr
        have ht' : includes s "between".toList = false ∧ includes s "from".toList = false ∧
            includes s "to".toList = false := by
          cases hb : includes s "between".toList <;> cases hf : includes s "from".toList <;>
            cases hto : includes s "to".toList <;> simp_all
        constructor
        · intro _
          exact ⟨⟨h1, h2, h3, h4⟩, Or.inl ht'⟩
        · intro _
          unfold handlePayrollQuery
          rw [hr]
  exact ⟨main, fun h1 h2 h3 h4 hex => main.2 ⟨⟨h1, h2, h3, h4⟩, Or.inr hex⟩⟩

/-- C10, witness: `payroll` alone is Payroll-classified and gets the
guidance; `payroll from 2024-01-01` has a single literal date and gets it
too. -/
theorem unrecognized_period_iff_witness :
    isPayrollQuery "payroll from 2024-01-01".toList = true ∧
    handlePayrollQuery 0 1704888000000 "payroll".toList 7 =
      .resolved unrecognizedPeriodResponse ∧
    (handlePayrollQuery 0 1704888000000 "payroll from 2024-01-01".toList 7 =
        .resolved unrecognizedPeriodResponse ↔
      (includes "payroll from 2024-01-01".toList "this week".toList = false ∧
        includes "payroll from 2024-01-01".toList "this month".toList = false ∧
        includes "payroll from 2024-01-01".toList "this year".toList = false ∧
        includes "payroll from 2024-01-01".toList "last month".toList = false) ∧
      ((includes "payroll from 2024-01-01".toList "between".toList = false ∧
          includes "payroll from 2024-01-01".toList "from".toList = false ∧
          includes "payroll from 2024-01-01".toList "to".toList = false) ∨
        ¬ ∃ i j, i + 10 ≤ j ∧ dateAt "payroll from 2024-01-01".toList i = true ∧
          dateAt "payroll from 2024-01-01".toList j = true)) :=
  ⟨by decide, by rfl,
    (unrecognized_period_iff 0 1704888000000 "payroll from 2024-01-01".toList 7 (by decide)).1⟩

/-! ## The answers of the customer handler (claims C12, C13, C14, C16) -/

theorem processMessage_of_customer (tza now : Int) (m : List Char) (a : Nat)
    (h : classifySpec m = .CustomerOrders) :
    processMessage tza now m a = handleCustomerQuery (toLowerCase m) := by
  unfold classifySpec at h
  by_cases hp : ∃ k ∈ payrollOrTimeKeywords, k <:+: toLowerCase m
  · rw [if_pos hp] at h; exact absurd h (by decide)
  · rw [if_neg hp] at h
    by_cases hc : ∃ k ∈ customerKeywords, k <:+: toLowerCase m
    · have hp2 : isPayrollQuery (toLowerCase m) = false := by
        rw [← Bool.not_eq_true, isPayrollQuery_iff]; exact hp
      unfold processMessage
      simp [hp2, (isCustomerQuery_iff _).2 hc]
    · rw [if_neg hc] at h; exact absurd h (by decide)

theorem handleCustomerQuery_of_name (s : List Char) (h : extractCustomerName s ≠ []) :
    handleCustomerQuery s =
      .ordersRead ('%' :: extractCustomerName s ++ ['%'])
        (ordersCallback (extractCustomerName s)) := by
  unfold handleCustomerQuery
  cases hn : extractCustomerName s with
  | nil => exact absurd hn h
  | cons c cs => rfl

/-- The loop over the rows adds the entries one after the other. -/
theorem foldl_renderOrder (rows : List OrderRow) (k : Nat) (acc : List Char) :
    (rows.enumFrom k).foldl (fun response io => response ++ renderOrder io.1 io.2) acc =
      acc ++ ((rows.enumFrom k).map (fun io => renderOrder io.1 io.2)).flatten := by
  induction rows generalizing k acc with
  | nil => simp
  | cons r rs ih => simp [List.enumFrom, ih, List.append_assoc]

theorem renderOrder_eq_orderEntrySpec (i : Nat) (order : OrderRow) :
    renderOrder i order = orderEntrySpec (i + 1) order := by
  unfold renderOrder orderEntrySpec
  cases hd : order.description with
  | none => simp
  | some d =>
    cases d with
    | nil => simp
    | cons c cs => simp

/-- The entries of the loop are the entries of the specification, numbered
one higher than the positions. -/
theorem map_renderOrder_enumFrom (l : List OrderRow) (k : Nat) :
    (l.enumFrom k).map (fun io => renderOrder io.1 io.2) =
      (l.enumFrom (k + 1)).map (fun io => orderEntrySpec io.1 io.2) := by
  induction l generalizing k with
  | nil => simp only [List.enumFrom_nil, List.map_nil]
  | cons r rs ih =>
    rw [List.enumFrom_cons, List.enumFrom_cons, List.map_cons, List.map_cons, ih,
      renderOrder_eq_orderEntrySpec]

/-- C12, the code at the failing input. An order row with total amount 2500
is rendered `Amount: $2500`, and one with 1234.5 as `Amount: $1234.5`, where
the payroll summary renders the same amounts as `2500.00` and `1234.50`. -/
theorem order_amount_without_two_decimals :
    ordersCallback "acme".toList
        (.ok [⟨"Site".toList, "2024-01-15".toList, 250000, "completed".toList, none⟩]) =
      ("**Orders for acme**\n\n1. **Site**\n   Date: 2024-01-15\n   Amount: $2500\n" ++
       "   Status: completed\n\n").toList ∧
    numberToString 250000 = "2500".toList ∧ toFixed2 250000 = "2500.00".toList ∧
    numberToString 50000 = "500".toList ∧ toFixed2 50000 = "500.00".toList ∧
    numberToString 123450 = "1234.5".toList ∧ toFixed2 123450 = "1234.50".toList :=
  ⟨by decide, by decide, by decide, by decide, by decide, by decide, by decide⟩

/-- C13. For a message of ASCII characters classified as CustomerOrders
whose extracted name `n` (taken from the lower-cased message) is not empty,
when the orders read (issued with the pattern `%n%`) returns no row the
response is exactly `No orders found for customer: ` followed by `n`. -/
theorem no_orders_found_response (engine : Engine) (db : Database) (tza now : Int)
    (m : List Char) (a : Nat) (_hm : isAscii m = true)
    (hc : classifySpec m = .CustomerOrders)
    (hn : extractCustomerName (toLowerCase m) ≠ [])
    (hrows : engine.findOrders db.orders
      ('%' :: extractCustomerName (toLowerCase m) ++ ['%']) = .ok []) :
    processMessage tza now m a =
      .ordersRead ('%' :: extractCustomerName (toLowerCase m) ++ ['%'])
        (ordersCallback (extractCustomerName (toLowerCase m))) ∧
    awaitOutcome engine db (processMessage tza now m a) =
      some ("No orders found for customer: ".toList ++ extractCustomerName (toLowerCase m)) := by
  have h : processMessage tza now m a =
      .ordersRead ('%' :: extractCustomerName (toLowerCase m) ++ ['%'])
        (ordersCallback (extractCustomerName (toLowerCase m))) := by
    rw [processMessage_of_customer tza now m a hc, handleCustomerQuery_of_name _ hn]
  refine ⟨h, ?_⟩
  rw [h]
  simp only [awaitOutcome, hrows]
  rfl

/-- C13, witness: `Show orders for Smith Corp` without matching rows gives
`No orders found for customer: smith corp`. -/
theorem no_orders_found_response_witness :
    awaitOutcome ⟨fun _ _ _ _ => .ok none, fun _ _ => .ok [], fun rows row => .ok (rows ++ [row])⟩
      ⟨[], [], []⟩
      (processMessage 0 1704888000000 "Show orders for Smith Corp".toList 7) =
    some "No orders found for customer: smith corp".toList :=
  (no_orders_found_response _ _ 0 1704888000000 "Show orders for Smith Corp".toList 7
    (by decide) (by decide) (by decide) rfl).2.trans (by decide)

/-- C14. For a message of ASCII characters classified as CustomerOrders whose
extracted name is the empty string the outcome is at once the guidance for a
missing name: no orders read is issued. -/
theorem missing_customer_name_short_circuit (tza now : Int) (m : List Char) (a : Nat)
    (_hm : isAscii m = true) (hc : classifySpec m = .CustomerOrders)
    (hn : extractCustomerName (toLowerCase m) = []) :
    handleCustomerQuery (toLowerCase m) = .resolved missingCustomerResponse ∧
    processMessage tza now m a = .resolved missingCustomerResponse ∧
    ∀ engine db, awaitOutcome engine db (processMessage tza now m a) =
      some missingCustomerResponse := by
  have h1 : handleCustomerQuery (toLowerCase m) = .resolved missingCustomerResponse := by
    unfold handleCustomerQuery
    rw [hn]
    rfl
  have h2 := processMessage_of_customer tza now m a hc
  rw [h1] at h2
  exact ⟨h1, h2, fun engine db => by rw [h2]; rfl⟩

/-- C14, witness: `client acme` has no trigger and `customer` has nothing
behind the trigger; both get the guidance without a store read. -/
theorem missing_customer_name_short_circuit_witness :
    extractCustomerName (toLowerCase "client acme".toList) = [] ∧
    processMessage 0 1704888000000 "client acme".toList 7 = .resolved missingCustomerResponse ∧
    extractCustomerName (toLowerCase "customer".toList) = [] ∧
    processMessage 0 1704888000000 "customer".toList 7 = .resolved missingCustomerResponse :=
  ⟨by decide,
    (missing_customer_name_short_circuit 0 1704888000000 "client acme".toList 7
      (by decide) (by decide) (by decide)).2.1,
    by decide,
    (missing_customer_name_short_circuit 0 1704888000000 "customer".toList 7
      (by decide) (by decide) (by decide)).2.1⟩

/-- C16. For a non-empty list of rows returned for the extracted name `c`
the response is the header `**Orders for c**` and an empty line, followed by
one entry per row in the order of the rows, the `i`-th numbered `i`, each
with project, date, amount, status, the description only when it is present
and not empty, and an empty line; there are as many entries as rows. -/
theorem orders_response_template (c : List Char) (rows : List OrderRow) (h : rows ≠ []) :
    ordersCallback c (.ok rows) =
      "**Orders for ".toList ++ c ++ "**\n\n".toList ++
        ((rows.enumFrom 1).map (fun io => orderEntrySpec io.1 io.2)).flatten ∧
    ((rows.enumFrom 1).map (fun io => orderEntrySpec io.1 io.2)).length = rows.length := by
  refine ⟨?_, by simp⟩
  have hl : rows.length ≠ 0 := fun e => h (List.length_eq_zero.1 e)
  unfold ordersCallback
  simp only []
  rw [if_neg hl, List.enum, foldl_renderOrder, map_renderOrder_enumFrom]

/-- C16, witness: two rows, the second with a description, the first with an
empty one. -/
theorem orders_response_template_witness :
    ordersCallback "acme".toList (.ok
      [⟨"Site".toList, "2024-01-15".toList, 250000, "completed".toList, some []⟩,
       ⟨"Logo".toList, "2024-01-10".toList, 50000, "pending".toList,
        some "New logo".toList⟩]) =
    ("**Orders for acme**\n\n" ++
     "1. **Site**\n   Date: 2024-01-15\n   Amount: $2500\n   Status: completed\n\n" ++
     "2. **Logo**\n   Date: 2024-01-10\n   Amount: $500\n   Status: pending\n" ++
     "   Description: New logo\n\n").toList :=
  (orders_response_template "acme".toList _ (by decide)).1.trans rfl

/-! ## The order of the period branches (claim C19) -/

/-- The outcome of `handlePayrollQuery` is fixed by the parsed period. -/
theorem handlePayrollQuery_congr (tza now : Int) (s s' : List Char) (a : Nat)
    (h : resolvePeriod tza now s = resolvePeriod tza now s') :
    handlePayrollQuery tza now s a = handlePayrollQuery tza now s' a := by
  unfold handlePayrollQuery
  rw [h]

/-- The read that `handlePayrollQuery` issues for a named period: the dates
of the date helper under its label. -/
theorem handlePayrollQuery_named_read (tza now : Int) (s : List Char) (a : Nat)
    (dates : Option DateRange) (label : List Char)
    (hr : resolvePeriod tza now s = Resolved.named dates label)
    (hd : ∀ d, dates = some d →
      ∃ tvs tve, d = { start := isoDate tvs, «end» := isoDate tve } ∧ tvs ≤ tve) :
    (dates = none → handlePayrollQuery tza now s a = .rangeError) ∧
    (∀ d, dates = some d → handlePayrollQuery tza now s a =
      .payrollRead a d.start d.end (payrollCallback label d.start d.end)) := by
  unfold handlePayrollQuery
  rw [hr]
  refine ⟨fun h => by rw [h]; rfl, fun d h => ?_⟩
  obtain ⟨tvs, tve, hde, _⟩ := hd d h
  rw [h, hde]
  simp [Resolved.named, isoDate_isEmpty]

/-- The two dates of a custom range are not empty. -/
theorem parseCustomDateRange_isEmpty (s : List Char) (d : DateRange)
    (h : parseCustomDateRange s = some d) : d.start.isEmpty = false ∧ d.end.isEmpty = false := by
  have hex : ∃ i j, i + 10 ≤ j ∧ dateAt s i = true ∧ dateAt s j = true := by
    by_contra hne
    rw [(parseCustomDateRange_eq_none_iff s).2 hne] at h
    exact absurd h (by simp)
  obtain ⟨i, j, hi, himin, hij, hj, hjmin⟩ := exists_first_two_dateAt s hex
  rw [parseCustomDateRange_of_first_two s i j hi himin hij hj hjmin] at h
  have hd := Option.some.inj h
  rw [← hd]
  exact ⟨isEmpty_of_dateAt s i hi, isEmpty_of_dateAt s j hj⟩

/-- What `handlePayrollQuery` does with a message without a named period. -/
theorem handlePayrollQuery_unnamed (tza now : Int) (s : List Char) (a : Nat)
    (h1 : includes s "this week".toList = false) (h2 : includes s "this month".toList = false)
    (h3 : includes s "this year".toList = false) (h4 : includes s "last month".toList = false) :
    handlePayrollQuery tza now s a =
      if includes s "between".toList || includes s "from".toList || includes s "to".toList then
        match parseCustomDateRange s with
        | some dates =>
          .payrollRead a dates.start dates.end
            (payrollCallback
              ("Custom Period (".toList ++ dates.start ++ " to ".toList ++ dates.end ++ [')'])
              dates.start dates.end)
        | none => .resolved unrecognizedPeriodResponse
      else .resolved unrecognizedPeriodResponse := by
  unfold handlePayrollQuery
  rw [resolvePeriod_unnamed tza now s h1 h2 h3 h4]
  by_cases ht : (includes s "between".toList || includes s "from".toList ||
      includes s "to".toList) = true
  · rw [if_pos ht, if_pos ht]
    cases hp : parseCustomDateRange s with
    | none => rfl
    | some d =>
      obtain ⟨e1, e2⟩ := parseCustomDateRange_isEmpty s d hp
      simp [e1, e2]
  · rw [if_neg ht, if_neg ht]

/-- C19. The period of a lower-cased message is the one of the first phrase
present in the order `this week`, `this month`, `this year`, `last month`:
`handlePayrollQuery` issues the payroll read with the dates that the date
helper of that phrase returns and with the label of that phrase (or throws
the `RangeError` of that helper), whatever else the message holds (later
phrases, trigger words, literal dates), so it comes to what it comes to for
the phrase alone. Only a message with none of the four phrases reaches the
custom range, whose read carries the two literal dates. -/
theorem period_resolution_first_match (tza now : Int) (s : List Char) (a : Nat) :
    (includes s "this week".toList = true →
      resolvePeriod tza now s = Resolved.named (getThisWeekDates tza now) "This Week".toList ∧
      handlePayrollQuery tza now s a =
        (match getThisWeekDates tza now with
         | none => .rangeError
         | some d =>
           .payrollRead a d.start d.end (payrollCallback "This Week".toList d.start d.end)) ∧
      handlePayrollQuery tza now s a = handlePayrollQuery tza now "this week".toList a) ∧
    (includes s "this week".toList = false → includes s "this month".toList = true →
      resolvePeriod tza now s = Resolved.named (getThisMonthDates tza now) "This Month".toList ∧
      handlePayrollQuery tza now s a =
        (match getThisMonthDates tza now with
         | none => .rangeError
         | some d =>
           .payrollRead a d.start d.end (payrollCallback "This Month".toList d.start d.end)) ∧
      handlePayrollQuery tza now s a = handlePayrollQuery tza now "this month".toList a) ∧
    (includes s "this week".toList = false → includes s "this month".toList = false →
      includes s "this year".toList = true →
      resolvePeriod tza now s = Resolved.named (getThisYearDates tza now) "This Year".toList ∧
      handlePayrollQuery tza now s a =
        (match getThisYearDates tza now with
         | none => .rangeError
         | some d =>
           .payrollRead a d.start d.end (payrollCallback "This Year".toList d.start d.end)) ∧
      handlePayrollQuery tza now s a = handlePayrollQuery tza now "this year".toList a) ∧
    (includes s "this week".toList = false → includes s "this month".toList = false →
      includes s "this year".toList = false → includes s "last month".toList = true →
      resolvePeriod tza now s = Resolved.named (getLastMonthDates tza now) "Last Month".toList ∧
      handlePayrollQuery tza now s a =
        (match getLastMonthDates tza now with
         | none => .rangeError
         | some d =>
           .payrollRead a d.start d.end (payrollCallback "Last Month".toList d.start d.end)) ∧
      handlePayrollQuery tza now s a = handlePayrollQuery tza now "last month".toList a) ∧
    (includes s "this week".toList = false → includes s "this month".toList = false →
      includes s "this year".toList = false → includes s "last month".toList = false →
      handlePayrollQuery tza now s a =
        if includes s "between".toList || includes s "from".toList || includes s "to".toList then
          match parseCustomDateRange s with
          | some dates =>
            .payrollRead a dates.start dates.end
              (payrollCallback
                ("Custom Period (".toList ++ dates.start ++ " to ".toList ++ dates.end ++ [')'])
                dates.start dates.end)
          | none => .resolved unrecognizedPeriodResponse
        else .resolved unrecognizedPeriodResponse) := by
  have hw : resolvePeriod tza now "this week".toList =
      Resolved.named (getThisWeekDates tza now) "This Week".toList := by
    unfold resolvePeriod
    rw [if_pos (by decide)]
  have hm : resolvePeriod tza now "this month".toList =
      Resolved.named (getThisMonthDates tza now) "This Month".toList := by
    unfold resolvePeriod
    rw [if_neg (by decide), if_pos (by decide)]
  have hy : resolvePeriod tza now "this year".toList =
      Resolved.named (getThisYearDates tza now) "This Year".toList := by
    unfold resolvePeriod
    rw [if_neg (by decide), if_neg (by decide), if_pos (by decide)]
  have hl : resolvePeriod tza now "last month".toList =
      Resolved.named (getLastMonthDates tza now) "Last Month".toList := by
    unfold resolvePeriod
    rw [if_neg (by decide), if_neg (by decide), if_neg (by decide), if_pos (by decide)]
  refine ⟨?_, ?_, ?_, ?_, ?_⟩
  · intro h1
    have e : resolvePeriod tza now s =
        Resolved.named (getThisWeekDates tza now) "This Week".toList := by
      unfold resolvePeriod
      rw [if_pos h1]
    have key := handlePayrollQuery_named_read tza now s a _ _ e
      (fun d hd => getThisWeekDates_some tza now d hd)
    refine ⟨e, ?_, handlePayrollQuery_congr tza now _ _ a (e.trans hw.symm)⟩
    cases hg : getThisWeekDates tza now with
    | none => exact key.1 hg
    | some d => exact key.2 d hg
  · intro h1 h2
    have e : resolvePeriod tza now s =
        Resolved.named (getThisMonthDates tza now) "This Month".toList := by
      unfold resolvePeriod
      rw [if_neg (by rw [h1]; decide), if_pos h2]
    have key := handlePayrollQuery_named_read tza now s a _ _ e
      (fun d hd => getThisMonthDates_some tza now d hd)
    refine ⟨e, ?_, handlePayrollQuery_congr tza now _ _ a (e.trans hm.symm)⟩
    cases hg : getThisMonthDates tza now with
    | none => exact key.1 hg
    | some d => exact key.2 d hg
  · intro h1 h2 h3
    have e : resolvePeriod tza now s =
        Resolved.named (getThisYearDates tza now) "This Year".toList := by
      unfold resolvePeriod
      rw [if_neg (by rw [h1]; decide), if_neg (by rw [h2]; decide), if_pos h3]
    have key := handlePayrollQuery_named_read tza now s a _ _ e
      (fun d hd => getThisYearDates_some tza now d hd)
    refine ⟨e, ?_, handlePayrollQuery_congr tza now _ _ a (e.trans hy.symm)⟩
    cases hg : getThisYearDates tza now with
    | none => exact key.1 hg
    | some d => exact key.2 d hg
  · intro h1 h2 h3 h4
    have e : resolvePeriod tza now s =
        Resolved.named (getLastMonthDates tza now) "Last Month".toList := by
      unfold resolvePeriod
      rw [if_neg (by rw [h1]; decide), if_neg (by rw [h2]; decide),
        if_neg (by rw [h3]; decide), if_pos h4]
    have key := handlePayrollQuery_named_read tza now s a _ _ e
      (fun d hd => getLastMonthDates_some tza now d hd)
    refine ⟨e, ?_, handlePayrollQuery_congr tza now _ _ a (e.trans hl.symm)⟩
    cases hg : getLastMonthDates tza now with
    | none => exact key.1 hg
    | some d => exact key.2 d hg
  · intro h1 h2 h3 h4
    exact handlePayrollQuery_unnamed tza now s a h1 h2 h3 h4

/-- C19, witness. On 2024-03-15 (UTC) the message
`payroll this month from 2024-01-01 to 2024-01-31` has the two literal dates
that the custom range would take, and the read it issues is the one for
March 2024 under the label `This Month`; `payroll last month this year this
week` issues the read for the week of 2024-03-10 under `This Week`. -/
theorem period_resolution_first_match_witness :
    parseCustomDateRange "payroll this month from 2024-01-01 to 2024-01-31".toList =
      some { start := "2024-01-01".toList, «end» := "2024-01-31".toList } ∧
    handlePayrollQuery 0 1710504000000
        "payroll this month from 2024-01-01 to 2024-01-31".toList 7 =
      .payrollRead 7 "2024-03-01".toList "2024-03-31".toList
        (payrollCallback "This Month".toList "2024-03-01".toList "2024-03-31".toList) ∧
    handlePayrollQuery 0 1710504000000 "payroll last month this year this week".toList 7 =
      .payrollRead 7 "2024-03-10".toList "2024-03-16".toList
        (payrollCallback "This Week".toList "2024-03-10".toList "2024-03-16".toList) :=
  ⟨by decide,
    ((period_resolution_first_match 0 1710504000000
      "payroll this month from 2024-01-01 to 2024-01-31".toList 7).2.1
      (by decide) (by decide)).2.1.trans
      (by rw [show getThisMonthDates 0 1710504000000 =
        some { start := "2024-03-01".toList, «end» := "2024-03-31".toList } by decide]),
    ((period_resolution_first_match 0 1710504000000
      "payroll last month this year this week".toList 7).1 (by decide)).2.1.trans
      (by rw [show getThisWeekDates 0 1710504000000 =
        some { start := "2024-03-10".toList, «end» := "2024-03-16".toList } by decide])⟩

/-! ## Date strings off UTC (claim C18) -/

/-- C18, the code at the failing input. In a process at UTC+05:30, at
2024-01-10T12:00Z (local date 2024-01-10): local midnight of 1 January 2024
is the instant 2023-12-31T18:30Z, its local calendar date is 2024-01-01 and
the string the helper returns for it is `2023-12-31`; the month comes out as
2023-12-31 to 2024-01-30 (on UTC: 2024-01-01 to 2024-01-31), the year as
2023-12-31 to 2024-12-30, last month as 2023-11-30 to 2023-12-30 and the week
as Saturday 2024-01-06 to 2024-01-13 (on UTC: 2024-01-07 to 2024-01-13). At
UTC-05:00 the end of the week comes out as Sunday 2024-01-14. -/
theorem named_periods_shifted_off_utc :
    localYmd 19800000 1704888000000 = "2024-01-10".toList ∧
    newDate 19800000 2024 0 1 = some 1704047400000 ∧
    localYmd 19800000 1704047400000 = "2024-01-01".toList ∧
    isoDate 1704047400000 = "2023-12-31".toList ∧
    getThisMonthDates 19800000 1704888000000 =
      some { start := "2023-12-31".toList, «end» := "2024-01-30".toList } ∧
    getThisMonthDates 0 1704888000000 =
      some { start := "2024-01-01".toList, «end» := "2024-01-31".toList } ∧
    getThisYearDates 19800000 1704888000000 =
      some { start := "2023-12-31".toList, «end» := "2024-12-30".toList } ∧
    getLastMonthDates 19800000 1704888000000 =
      some { start := "2023-11-30".toList, «end» := "2023-12-30".toList } ∧
    getThisWeekDates 19800000 1704888000000 =
      some { start := "2024-01-06".toList, «end» := "2024-01-13".toList } ∧
    getThisWeekDates 0 1704888000000 =
      some { start := "2024-01-07".toList, «end» := "2024-01-13".toList } ∧
    getThisWeekDates (-18000000) 1704888000000 =
      some { start := "2024-01-07".toList, «end» := "2024-01-14".toList } := by
  refine ⟨by decide, by decide, by decide, by decide, by decide, by decide, by decide,
    by decide, by decide, by decide, by decide⟩

/-! ## The write of the chat turn (claim C17) -/

/-- The response awaited from an outcome takes from the store only the two
reads on the payroll and orders tables. -/
theorem awaitOutcome_congr (engine engine' : Engine) (db db' : Database) (o : Outcome)
    (hp : engine'.payrollSum = engine.payrollSum) (ho : engine'.findOrders = engine.findOrders)
    (hdp : db'.payroll = db.payroll) (hdo : db'.orders = db.orders) :
    awaitOutcome engine' db' o = awaitOutcome engine db o := by
  cases o with
  | resolved r => rfl
  | rangeError => rfl
  | payrollRead a s e cb => simp only [awaitOutcome, hp, hdp]
  | ordersRead p cb => simp only [awaitOutcome, ho, hdo]

theorem saveChatHistory_tables (engine : Engine) (db : Database) (a : Nat)
    (m r : List Char) :
    (saveChatHistory engine db a m r).payroll = db.payroll ∧
    (saveChatHistory engine db a m r).orders = db.orders := by
  unfold saveChatHistory
  cases engine.insertChat db.chat_history { agent_id := a, message := m, response := r } with
  | ok rows => exact ⟨rfl, rfl⟩
  | error e => exact ⟨rfl, rfl⟩

theorem postMessage_fst (engine : Engine) (tza now : Int) (db : Database) (m : List Char)
    (a : Nat) :
    (postMessage engine tza now db m a).1 =
      if m.isEmpty then .badRequest
      else match awaitOutcome engine db (processMessage tza now m a) with
        | none => .internalError
        | some response => .json response := by
  unfold postMessage
  by_cases hm : m.isEmpty = true
  · rw [if_pos hm, if_pos hm]
  · rw [if_neg hm, if_neg hm]
    cases awaitOutcome engine db (processMessage tza now m a) with
    | none => rfl
    | some r => rfl

theorem postMessage_tables (engine : Engine) (tza now : Int) (db : Database) (m : List Char)
    (a : Nat) :
    (postMessage engine tza now db m a).2.payroll = db.payroll ∧
    (postMessage engine tza now db m a).2.orders = db.orders := by
  unfold postMessage
  by_cases hm : m.isEmpty = true
  · rw [if_pos hm]; exact ⟨rfl, rfl⟩
  · rw [if_neg hm]
    cases awaitOutcome engine db (processMessage tza now m a) with
    | none => exact ⟨rfl, rfl⟩
    | some r => exact saveChatHistory_tables engine db a m r

theorem postMessage_fst_congr (engine engine' : Engine) (tza now : Int) (db db' : Database)
    (m : List Char) (a : Nat)
    (hp : engine'.payrollSum = engine.payrollSum) (ho : engine'.findOrders = engine.findOrders)
    (hdp : db'.payroll = db.payroll) (hdo : db'.orders = db.orders) :
    (postMessage engine' tza now db' m a).1 = (postMessage engine tza now db m a).1 := by
  rw [postMessage_fst, postMessage_fst, awaitOutcome_congr engine engine' db db' _ hp ho hdp hdo]

/-- C17. Two stores that read the payroll and orders tables alike (their
insert into `chat_history` may behave in any way, succeed or fail) and two
states with the same payroll and orders tables (any `chat_history`) give the
same reply to a message at the same clock reading; handling a message leaves
the payroll and orders tables as they were; hence handling the message again
on the state left by the first handling gives the identical reply. -/
theorem chat_turn_write_does_not_interfere (engine engine' : Engine) (tza now : Int)
    (db db' : Database) (message : List Char) (agentId : Nat)
    (hp : engine'.payrollSum = engine.payrollSum) (ho : engine'.findOrders = engine.findOrders)
    (hdp : db'.payroll = db.payroll) (hdo : db'.orders = db.orders) :
    (postMessage engine' tza now db' message agentId).1 =
      (postMessage engine tza now db message agentId).1 ∧
    (postMessage engine tza now db message agentId).2.payroll = db.payroll ∧
    (postMessage engine tza now db message agentId).2.orders = db.orders ∧
    (postMessage engine' tza now (postMessage engine tza now db message agentId).2
        message agentId).1 =
      (postMessage engine tza now db message agentId).1 := by
  have ht := postMessage_tables engine tza now db message agentId
  exact ⟨postMessage_fst_congr engine engine' tza now db db' message agentId hp ho hdp hdo,
    ht.1, ht.2,
    postMessage_fst_congr engine engine' tza now db _ message agentId hp ho ht.1 ht.2⟩

/-- C17, witness. A store whose insert appends the turn and one whose insert
fails, both summing the payroll to 1200.00: `payroll this week` gets the
same summary from the second store on the state left by the first, where
`chat_history` has grown by the turn. -/
theorem chat_turn_write_does_not_interfere_witness :
    (postMessage ⟨fun _ _ _ _ => .ok (some 120000), fun _ _ => .ok [],
        fun _ _ => .error "SQLITE_FULL".toList⟩ 0 1704888000000
      (postMessage ⟨fun _ _ _ _ => .ok (some 120000), fun _ _ => .ok [],
        fun rows row => .ok (rows ++ [row])⟩ 0 1704888000000 ⟨[], [], []⟩
        "payroll this week".toList 7).2 "payroll this week".toList 7).1 =
      (postMessage ⟨fun _ _ _ _ => .ok (some 120000), fun _ _ => .ok [],
        fun rows row => .ok (rows ++ [row])⟩ 0 1704888000000 ⟨[], [], []⟩
        "payroll this week".toList 7).1 ∧
    (postMessage ⟨fun _ _ _ _ => .ok (some 120000), fun _ _ => .ok [],
        fun rows row => .ok (rows ++ [row])⟩ 0 1704888000000 ⟨[], [], []⟩
        "payroll this week".toList 7).2.chat_history.length = 1 ∧
    (postMessage ⟨fun _ _ _ _ => .ok (some 120000), fun _ _ => .ok [],
        fun rows row => .ok (rows ++ [row])⟩ 0 1704888000000 ⟨[], [], []⟩
        "payroll this week".toList 7).1 =
      .json ("**This Week Payroll Summary**\n\nTotal Amount: $1200.00\n" ++
        "Period: 2024-01-07 to 2024-01-13").toList :=
  ⟨(chat_turn_write_does_not_interfere
      ⟨fun _ _ _ _ => .ok (some 120000), fun _ _ => .ok [], fun rows row => .ok (rows ++ [row])⟩
      ⟨fun _ _ _ _ => .ok (some 120000), fun _ _ => .ok [],
        fun _ _ => .error "SQLITE_FULL".toList⟩
      0 1704888000000 ⟨[], [], []⟩ ⟨[], [], []⟩ "payroll this week".toList 7
      rfl rfl rfl rfl).2.2.2,
    by decide, by decide⟩

/-! ## Decimal numerals and the payroll summary (claim C11) -/

theorem decimalValue_append_singleton (w : List Char) (c : Char) :
    decimalValue (w ++ [c]) = 10 * decimalValue w + (c.toNat - 48) := by
  unfold decimalValue
  rw [List.foldl_append]
  rfl

theorem decimalValue_digitChar (w : List Char) (k : Nat) :
    decimalValue (w ++ [Nat.digitChar (k % 10)]) = 10 * decimalValue w + k % 10 := by
  rw [decimalValue_append_singleton, digitChar_toNat _ (Nat.mod_lt _ (by decide))]
  omega

/-- What the digit loop of the runtime writes in front of `ds` for `n`, with
enough fuel: a numeral of value `n` without a leading zero. -/
theorem toDigitsCore_spec (fuel : Nat) : ∀ (n : Nat) (ds : List Char), n < fuel →
    ∃ w : List Char, Nat.toDigitsCore 10 fuel n ds = w ++ ds ∧ w ≠ [] ∧
      (∀ c ∈ w, isDigit c = true) ∧ decimalValue w = n ∧
      (w.head? = some '0' → w = ['0']) := by
  induction fuel with
  | zero => intro n ds h; omega
  | succ fuel ih =>
    intro n ds h
    by_cases h0 : n / 10 = 0
    · refine ⟨[Nat.digitChar (n % 10)], ?_, by simp, ?_, ?_, ?_⟩
      · simp only [Nat.toDigitsCore, if_pos h0, List.singleton_append]
      · intro c hc
        rw [List.mem_singleton] at hc
        rw [hc]
        exact isDigit_digitChar n
      · have := decimalValue_digitChar [] n
        rw [List.nil_append] at this
        rw [this]
        have : decimalValue [] = 0 := rfl
        omega
      · intro hh
        simp only [List.head?_cons, Option.some.injEq] at hh
        rw [hh]
    · obtain ⟨w, hw, hne, hdig, hval, hhead⟩ :=
        ih (n / 10) (Nat.digitChar (n % 10) :: ds) (by omega)
      refine ⟨w ++ [Nat.digitChar (n % 10)], ?_, by simp, ?_, ?_, ?_⟩
      · simp only [Nat.toDigitsCore, if_neg h0]
        rw [hw, List.append_assoc, List.singleton_append]
      · intro c hc
        rcases List.mem_append.1 hc with hc | hc
        · exact hdig c hc
        · rw [List.mem_singleton] at hc
          rw [hc]
          exact isDigit_digitChar n
      · rw [decimalValue_digitChar, hval]
        omega
      · intro hh
        cases w with
        | nil => exact absurd rfl hne
        | cons c cs =>
          rw [List.cons_append, List.head?_cons] at hh
          have hc := hhead (by rw [List.head?_cons]; exact hh)
          rw [hc] at hval
          have : decimalValue ['0'] = 0 := by decide
          omega

/-- The decimal numeral of `n`: digits only, of value `n`, no leading zero
(`0` for zero). -/
theorem natToString_spec (n : Nat) :
    natToString n ≠ [] ∧ (∀ c ∈ natToString n, isDigit c = true) ∧
    decimalValue (natToString n) = n ∧
    ((natToString n).head? = some '0' → natToString n = ['0']) := by
  obtain ⟨w, hw, hne, hdig, hval, hhead⟩ := toDigitsCore_spec (n + 1) n [] (by omega)
  rw [List.append_nil] at hw
  unfold natToString Nat.toDigits
  rw [hw]
  exact ⟨hne, hdig, hval, hhead⟩

theorem fixedDigits_two (r : Nat) :
    fixedDigits 2 r = [Nat.digitChar (r / 10 % 10), Nat.digitChar (r % 10)] := rfl

/-- The string of `toFixed(2)` for a non-negative amount: a numeral, a
point and exactly two digits, of the value of the amount. -/
theorem toFixed2_isTwoDecimalsOf (t : Nat) : isTwoDecimalsOf t (toFixed2 (t : Int)) := by
  obtain ⟨hne, hdig, hval, hhead⟩ := natToString_spec (t / 100)
  refine ⟨natToString (t / 100), fixedDigits 2 (t % 100), ?_, hne, hdig, hhead,
    length_fixedDigits 2 _, ?_, ?_⟩
  · unfold toFixed2
    rw [if_neg (by omega), List.nil_append, Int.natAbs_ofNat]
  · intro c hc
    rw [fixedDigits_two] at hc
    simp only [List.mem_cons, List.mem_singleton, List.not_mem_nil, or_false] at hc
    rcases hc with hc | hc <;> (rw [hc]; exact isDigit_digitChar _)
  · rw [fixedDigits_two,
      show natToString (t / 100) ++ [Nat.digitChar (t % 100 / 10 % 10), Nat.digitChar (t % 100 % 10)]
        = (natToString (t / 100) ++ [Nat.digitChar (t % 100 / 10 % 10)]) ++
          [Nat.digitChar (t % 100 % 10)] by simp,
      decimalValue_digitChar, decimalValue_digitChar, hval]
    omega

theorem Resolved.named_eq_range {dates : Option DateRange} {l start stop label : List Char}
    (h : Resolved.named dates l = .range start stop label) : label = l := by
  cases dates with
  | none => exact absurd h (by simp [Resolved.named])
  | some d =>
    simp only [Resolved.named, Resolved.range.injEq] at h
    exact h.2.2.symm

theorem handlePayrollQuery_of_range (tza now : Int) (s : List Char) (a : Nat)
    (start stop label : List Char) (hr : resolvePeriod tza now s = .range start stop label)
    (hs : start ≠ []) (he : stop ≠ []) :
    handlePayrollQuery tza now s a =
      .payrollRead a start stop (payrollCallback label start stop) := by
  unfold handlePayrollQuery
  rw [hr]
  cases start with
  | nil => exact absurd rfl hs
  | cons c cs =>
    cases stop with
    | nil => exact absurd rfl he
    | cons d ds => rfl

theorem payrollCallback_ok (label start stop : List Char) (t : Option Nat) :
    payrollCallback label start stop (.ok (t.map Int.ofNat)) =
      "**".toList ++ label ++ " Payroll Summary**\n\nTotal Amount: $".toList ++
        toFixed2 ((t.getD 0 : Nat) : Int) ++ "\nPeriod: ".toList ++ start ++ " to ".toList ++
        stop := by
  cases t with
  | none => rfl
  | some n => rfl

/-- C11. When the period of a lower-cased message resolves to start, end and
label, and the payroll read returns the total `t` (a whole number of cents
below 10^23, or `NULL` when no row matches, taken as 0), the awaited
response is `**<label> Payroll Summary**`, an empty line,
`Total Amount: $<amount>` and `Period: <start> to <end>`, the amount being a
numeral without leading zero or separator, a point and exactly two digits,
of the value of `t`; the label is `This Week`, `This Month`, `This Year` or
`Last Month` for the named phrases. -/
theorem payroll_summary_template (engine : Engine) (db : Database) (tza now : Int)
    (s : List Char) (a : Nat) (start stop label : List Char) (t : Option Nat)
    (hr : resolvePeriod tza now s = .range start stop label)
    (hs : start ≠ []) (he : stop ≠ [])
    (hsum : engine.payrollSum db.payroll a start stop = .ok (t.map Int.ofNat))
    (_ht : t.getD 0 < 10 ^ 23) :
    awaitOutcome engine db (handlePayrollQuery tza now s a) =
      some ("**".toList ++ label ++ " Payroll Summary**\n\nTotal Amount: $".toList ++
        toFixed2 ((t.getD 0 : Nat) : Int) ++ "\nPeriod: ".toList ++ start ++ " to ".toList ++
        stop) ∧
    isTwoDecimalsOf (t.getD 0) (toFixed2 ((t.getD 0 : Nat) : Int)) ∧
    (includes s "this week".toList = true → label = "This Week".toList) ∧
    (includes s "this week".toList = false → includes s "this month".toList = true →
      label = "This Month".toList) ∧
    (includes s "this week".toList = false → includes s "this month".toList = false →
      includes s "this year".toList = true → label = "This Year".toList) ∧
    (includes s "this week".toList = false → includes s "this month".toList = false →
      includes s "this year".toList = false → includes s "last month".toList = true →
      label = "Last Month".toList) := by
  refine ⟨?_, toFixed2_isTwoDecimalsOf _, ?_, ?_, ?_, ?_⟩
  · rw [handlePayrollQuery_of_range tza now s a start stop label hr hs he]
    simp only [awaitOutcome, hsum]
    rw [payrollCallback_ok]
  · intro h1
    have e : resolvePeriod tza now s =
        Resolved.named (getThisWeekDates tza now) "This Week".toList := by
      unfold resolvePeriod
      rw [if_pos h1]
    exact Resolved.named_eq_range (e.symm.trans hr)
  · intro h1 h2
    have e : resolvePeriod tza now s =
        Resolved.named (getThisMonthDates tza now) "This Month".toList := by
      unfold resolvePeriod
      rw [if_neg (by rw [h1]; decide), if_pos h2]
    exact Resolved.named_eq_range (e.symm.trans hr)
  · intro h1 h2 h3
    have e : resolvePeriod tza now s =
        Resolved.named (getThisYearDates tza now) "This Year".toList := by
      unfold resolvePeriod
      rw [if_neg (by rw [h1]; decide), if_neg (by rw [h2]; decide), if_pos h3]
    exact Resolved.named_eq_range (e.symm.trans hr)
  · intro h1 h2 h3 h4
    have e : resolvePeriod tza now s =
        Resolved.named (getLastMonthDates tza now) "Last Month".toList := by
      unfold resolvePeriod
      rw [if_neg (by rw [h1]; decide), if_neg (by rw [h2]; decide),
        if_neg (by rw [h3]; decide), if_pos h4]
    exact Resolved.named_eq_range (e.symm.trans hr)

/-- C11, witness. `payroll this week` on Wednesday 2024-01-10 (UTC) with a
store that sums to 1200.00 gives the summary of the week with
`Total Amount: $1200.00`; a total of 0 or `NULL` is rendered `0.00` and
1234.5 is rendered `1234.50`. -/
theorem payroll_summary_template_witness :
    awaitOutcome ⟨fun _ _ _ _ => .ok (some 120000), fun _ _ => .ok [],
        fun rows row => .ok (rows ++ [row])⟩ ⟨[], [], []⟩
      (handlePayrollQuery 0 1704888000000 "payroll this week".toList 7) =
      some ("**This Week Payroll Summary**\n\nTotal Amount: $1200.00\n" ++
        "Period: 2024-01-07 to 2024-01-13").toList ∧
    toFixed2 0 = "0.00".toList ∧ toFixed2 123450 = "1234.50".toList ∧
    payrollCallback "This Month".toList "2024-01-01".toList "2024-01-31".toList (.ok none) =
      ("**This Month Payroll Summary**\n\nTotal Amount: $0.00\n" ++
        "Period: 2024-01-01 to 2024-01-31").toList :=
  ⟨((payroll_summary_template
      ⟨fun _ _ _ _ => .ok (some 120000), fun _ _ => .ok [], fun rows row => .ok (rows ++ [row])⟩
      ⟨[], [], []⟩ 0 1704888000000 "payroll this week".toList 7
      "2024-01-07".toList "2024-01-13".toList "This Week".toList (some 120000)
      (by decide) (by decide) (by decide) rfl (by decide)).1).trans (by decide),
    by decide, by decide, by decide⟩

/-! ## No path throws within the range of the clock (claim C15) -/

theorem daysBeforeMonth_range (mn l : Int) (h0 : 0 ≤ l) (h1 : l ≤ 1) :
    0 ≤ daysBeforeMonth mn l ∧ daysBeforeMonth mn l ≤ 335 := by
  unfold daysBeforeMonth
  by_cases c0 : mn = 0
  · rw [if_pos c0]; omega
  rw [if_neg c0]
  by_cases c1 : mn = 1
  · rw [if_pos c1]; omega
  rw [if_neg c1]
  by_cases c2 : mn = 2
  · rw [if_pos c2]; omega
  rw [if_neg c2]
  by_cases c3 : mn = 3
  · rw [if_pos c3]; omega
  rw [if_neg c3]
  by_cases c4 : mn = 4
  · rw [if_pos c4]; omega
  rw [if_neg c4]
  by_cases c5 : mn = 5
  · rw [if_pos c5]; omega
  rw [if_neg c5]
  by_cases c6 : mn = 6
  · rw [if_pos c6]; omega
  rw [if_neg c6]
  by_cases c7 : mn = 7
  · rw [if_pos c7]; omega
  rw [if_neg c7]
  by_cases c8 : mn = 8
  · rw [if_pos c8]; omega
  rw [if_neg c8]
  by_cases c9 : mn = 9
  · rw [if_pos c9]; omega
  rw [if_neg c9]
  by_cases c10 : mn = 10
  · rw [if_pos c10]; omega
  rw [if_neg c10]
  omega

theorem MakeDay_bounds (y m d : Int) (hy1 : -200000 ≤ y) (hy2 : y ≤ 200000)
    (hm1 : -12 ≤ m) (hm2 : m ≤ 23) (hd1 : -1 ≤ d) (hd2 : d ≤ 32) :
    -74000000 ≤ MakeDay y m d ∧ MakeDay y m d ≤ 74000000 := by
  unfold MakeDay
  simp only
  have hq1 : -1 ≤ m / 12 := by omega
  have hq2 : m / 12 ≤ 1 := by omega
  have hb := DayFromYear_bounds (y + m / 12)
  have hl := leapOf_cases (y + m / 12)
  have hr := daysBeforeMonth_range (m % 12) (leapOf (y + m / 12)) (by omega) (by omega)
  generalize DayFromYear (y + m / 12) = D at *
  generalize daysBeforeMonth (m % 12) (leapOf (y + m / 12)) = B at *
  generalize m / 12 = q at *
  omega

theorem YearFromTime_bounds (t : Int) (h1 : -6100000000000000 ≤ t) (h2 : t ≤ 6100000000000000) :
    -199000 ≤ YearFromTime t ∧ YearFromTime t ≤ 199000 := by
  have hs := yearFromDay_spec (Day t)
  have hd1 : -70700000 ≤ Day t := by unfold Day msPerDay; omega
  have hd2 : Day t ≤ 70700000 := by unfold Day msPerDay; omega
  have hb1 := DayFromYear_bounds (yearFromDay (Day t))
  have hb2 := DayFromYear_bounds (yearFromDay (Day t) + 1)
  unfold YearFromTime
  generalize DayFromYear (yearFromDay (Day t)) = A at *
  generalize DayFromYear (yearFromDay (Day t) + 1) = B at *
  generalize yearFromDay (Day t) = y at *
  omega

theorem newDate_isSome (tza y m d : Int) (hz1 : -86400000 ≤ tza) (hz2 : tza ≤ 86400000)
    (hy1 : -199000 ≤ y) (hy2 : y ≤ 199000) (hm1 : -12 ≤ m) (hm2 : m ≤ 23)
    (hd1 : -1 ≤ d) (hd2 : d ≤ 32) :
    ∃ v, newDate tza y m d = some v := by
  unfold newDate
  simp only
  have hb := MakeDay_bounds (if 0 ≤ y ∧ y ≤ 99 then 1900 + y else y) m d
    (by split_ifs <;> omega) (by split_ifs <;> omega) hm1 hm2 hd1 hd2
  generalize MakeDay (if 0 ≤ y ∧ y ≤ 99 then 1900 + y else y) m d = M at hb
  refine ⟨_, TimeClip_of_bounds _ ?_ ?_⟩ <;>
    (simp only [UTC, MakeDate, MakeTime, msPerDay]; omega)

theorem setDate_isSome (tza t k : Int) (h1 : -7000000000000000 ≤ t)
    (h2 : t ≤ 7000000000000000) (hk1 : -7 ≤ k) (hk2 : k ≤ 7) :
    setDate tza t (getDate tza t + k) = some (t + k * msPerDay) := by
  rw [setDate_eq]
  apply TimeClip_of_bounds <;> (unfold msPerDay; omega)

theorem setHours_isSome (tza t h m s ms : Int)
    (h1 : -7000000000000000 ≤ t) (h2 : t ≤ 7000000000000000)
    (ht1 : 0 ≤ MakeTime h m s ms) (ht2 : MakeTime h m s ms < 86400000) :
    ∃ v, setHours tza t h m s ms = some v ∧ t - 86400000 ≤ v ∧ v ≤ t + 86400000 := by
  unfold setHours
  simp only [UTC, MakeDate, LocalTime, Day, msPerDay]
  generalize MakeTime h m s ms = mt at ht1 ht2
  refine ⟨_, TimeClip_of_bounds _ ?_ ?_, ?_, ?_⟩ <;> omega

theorem getFullYear_bounds (tza now : Int) (hz1 : -86400000 ≤ tza) (hz2 : tza ≤ 86400000)
    (h1 : -6000000000000000 ≤ now) (h2 : now ≤ 6000000000000000) :
    -199000 ≤ getFullYear tza now ∧ getFullYear tza now ≤ 199000 := by
  unfold getFullYear
  apply YearFromTime_bounds <;> (unfold LocalTime; omega)

theorem getThisMonthDates_isSome (tza now : Int) (hz1 : -86400000 ≤ tza) (hz2 : tza ≤ 86400000)
    (h1 : -6000000000000000 ≤ now) (h2 : now ≤ 6000000000000000) :
    ∃ d, getThisMonthDates tza now = some d := by
  have hy := getFullYear_bounds tza now hz1 hz2 h1 h2
  have hm := MonthFromTime_range (LocalTime tza now)
  obtain ⟨a, ha⟩ := newDate_isSome tza (getFullYear tza now) (getMonth tza now) 1 hz1 hz2
    hy.1 hy.2 (by unfold getMonth; omega) (by unfold getMonth; omega) (by omega) (by omega)
  obtain ⟨b, hb⟩ := newDate_isSome tza (getFullYear tza now) (getMonth tza now + 1) 0 hz1 hz2
    hy.1 hy.2 (by unfold getMonth; omega) (by unfold getMonth; omega) (by omega) (by omega)
  exact ⟨_, by unfold getThisMonthDates; rw [ha, hb]; rfl⟩

theorem getThisYearDates_isSome (tza now : Int) (hz1 : -86400000 ≤ tza) (hz2 : tza ≤ 86400000)
    (h1 : -6000000000000000 ≤ now) (h2 : now ≤ 6000000000000000) :
    ∃ d, getThisYearDates tza now = some d := by
  have hy := getFullYear_bounds tza now hz1 hz2 h1 h2
  obtain ⟨a, ha⟩ := newDate_isSome tza (getFullYear tza now) 0 1 hz1 hz2
    hy.1 hy.2 (by omega) (by omega) (by omega) (by omega)
  obtain ⟨b, hb⟩ := newDate_isSome tza (getFullYear tza now) 11 31 hz1 hz2
    hy.1 hy.2 (by omega) (by omega) (by omega) (by omega)
  exact ⟨_, by unfold getThisYearDates; rw [ha, hb]; rfl⟩

theorem getLastMonthDates_isSome (tza now : Int) (hz1 : -86400000 ≤ tza) (hz2 : tza ≤ 86400000)
    (h1 : -6000000000000000 ≤ now) (h2 : now ≤ 6000000000000000) :
    ∃ d, getLastMonthDates tza now = some d := by
  have hy := getFullYear_bounds tza now hz1 hz2 h1 h2
  have hm := MonthFromTime_range (LocalTime tza now)
  obtain ⟨a, ha⟩ := newDate_isSome tza (getFullYear tza now) (getMonth tza now - 1) 1 hz1 hz2
    hy.1 hy.2 (by unfold getMonth; omega) (by unfold getMonth; omega) (by omega) (by omega)
  obtain ⟨b, hb⟩ := newDate_isSome tza (getFullYear tza now) (getMonth tza now) 0 hz1 hz2
    hy.1 hy.2 (by unfold getMonth; omega) (by unfold getMonth; omega) (by omega) (by omega)
  exact ⟨_, by unfold getLastMonthDates; rw [ha, hb]; rfl⟩

theorem getThisWeekDates_isSome (tza now : Int)
    (h1 : -6000000000000000 ≤ now) (h2 : now ≤ 6000000000000000) :
    ∃ d, getThisWeekDates tza now = some d := by
  have hw := WeekDay_range (LocalTime tza now)
  have e1 : setDate tza now (getDate tza now - getDay tza now) =
      some (now + -(getDay tza now) * msPerDay) := by
    rw [sub_eq_add_neg]
    exact setDate_isSome tza now _ (by omega) (by omega) (by unfold getDay; omega)
      (by unfold getDay; omega)
  have hv1 : -6000700000000 - 6000000000000000 ≤ now + -(getDay tza now) * msPerDay ∧
      now + -(getDay tza now) * msPerDay ≤ 6000000000000000 + 6000700000000 := by
    unfold getDay msPerDay; omega
  generalize now + -(getDay tza now) * msPerDay = v1 at e1 hv1
  obtain ⟨v2, e2, hv2a, hv2b⟩ := setHours_isSome tza v1 0 0 0 0 (by omega) (by omega)
    (by decide) (by decide)
  have e3 := setDate_isSome tza v2 6 (by omega) (by omega) (by omega) (by omega)
  have hv3 : v2 + 6 * msPerDay = v2 + 518400000 := by unfold msPerDay; omega
  rw [hv3] at e3
  obtain ⟨v4, e4, _, _⟩ := setHours_isSome tza (v2 + 518400000) 23 59 59 999 (by omega)
    (by omega) (by decide) (by decide)
  exact ⟨_, by unfold getThisWeekDates; rw [e1]; simp only [Option.bind_eq_bind,
    Option.some_bind, e2, e3, e4]; rfl⟩

/-- Within the range of the clock the period parsing does not throw. -/
theorem resolvePeriod_ne_rangeError (tza now : Int) (s : List Char)
    (hz1 : -86400000 ≤ tza) (hz2 : tza ≤ 86400000)
    (h1 : -6000000000000000 ≤ now) (h2 : now ≤ 6000000000000000) :
    resolvePeriod tza now s ≠ .rangeError := by
  obtain ⟨dw, hw⟩ := getThisWeekDates_isSome tza now h1 h2
  obtain ⟨dm, hm⟩ := getThisMonthDates_isSome tza now hz1 hz2 h1 h2
  obtain ⟨dy, hy⟩ := getThisYearDates_isSome tza now hz1 hz2 h1 h2
  obtain ⟨dl, hl⟩ := getLastMonthDates_isSome tza now hz1 hz2 h1 h2
  unfold resolvePeriod
  rw [hw, hm, hy, hl]
  by_cases c1 : includes s "this week".toList = true
  · rw [if_pos c1]; simp [Resolved.named]
  rw [if_neg c1]
  by_cases c2 : includes s "this month".toList = true
  · rw [if_pos c2]; simp [Resolved.named]
  rw [if_neg c2]
  by_cases c3 : includes s "this year".toList = true
  · rw [if_pos c3]; simp [Resolved.named]
  rw [if_neg c3]
  by_cases c4 : includes s "last month".toList = true
  · rw [if_pos c4]; simp [Resolved.named]
  rw [if_neg c4]
  split_ifs
  · cases parseCustomDateRange s with
    | none => simp
    | some d => simp
  · simp

theorem awaitOutcome_isSome (engine : Engine) (db : Database) (o : Outcome)
    (h : o ≠ .rangeError) : ∃ response, awaitOutcome engine db o = some response := by
  cases o with
  | resolved r => exact ⟨r, rfl⟩
  | rangeError => exact absurd rfl h
  | payrollRead a s e cb => exact ⟨_, rfl⟩
  | ordersRead p cb => exact ⟨_, rfl⟩

/-- What `handlePayrollQuery` comes to, by the parsed period. -/
theorem handlePayrollQuery_cases (tza now : Int) (s : List Char) (a : Nat) :
    (resolvePeriod tza now s = .rangeError ∧ handlePayrollQuery tza now s a = .rangeError) ∨
    handlePayrollQuery tza now s a = .resolved unrecognizedPeriodResponse ∨
    ∃ start stop label, handlePayrollQuery tza now s a =
      .payrollRead a start stop (payrollCallback label start stop) := by
  unfold handlePayrollQuery
  cases resolvePeriod tza now s with
  | rangeError => exact Or.inl ⟨rfl, rfl⟩
  | unset => exact Or.inr (Or.inl rfl)
  | range st en label =>
    by_cases he : (st.isEmpty || en.isEmpty) = true
    · exact Or.inr (Or.inl (by simp only [he, if_true]))
    · exact Or.inr (Or.inr ⟨st, en, label, by simp only [he]; rfl⟩)

theorem handleCustomerQuery_cases (s : List Char) :
    handleCustomerQuery s = .resolved missingCustomerResponse ∨
    handleCustomerQuery s =
      .ordersRead ('%' :: extractCustomerName s ++ ['%'])
        (ordersCallback (extractCustomerName s)) := by
  unfold handleCustomerQuery
  cases extractCustomerName s with
  | nil => exact Or.inl rfl
  | cons c cs => exact Or.inr rfl

/-- What `processMessage` comes to. -/
theorem processMessage_cases (tza now : Int) (m : List Char) (a : Nat) :
    (resolvePeriod tza now (toLowerCase m) = .rangeError ∧
      processMessage tza now m a = .rangeError) ∨
    (∃ r, processMessage tza now m a = .resolved r) ∨
    (∃ start stop label, processMessage tza now m a =
      .payrollRead a start stop (payrollCallback label start stop)) ∨
    ∃ name, processMessage tza now m a =
      .ordersRead ('%' :: name ++ ['%']) (ordersCallback name) := by
  unfold processMessage
  simp only
  by_cases hp : isPayrollQuery (toLowerCase m) = true
  · rw [if_pos hp]
    rcases handlePayrollQuery_cases tza now (toLowerCase m) a with h | h | h
    · exact Or.inl h
    · exact Or.inr (Or.inl ⟨_, h⟩)
    · exact Or.inr (Or.inr (Or.inl h))
  · rw [if_neg hp]
    by_cases hc : isCustomerQuery (toLowerCase m) = true
    · rw [if_pos hc]
      rcases handleCustomerQuery_cases (toLowerCase m) with h | h
      · exact Or.inr (Or.inl ⟨_, h⟩)
      · exact Or.inr (Or.inr (Or.inr ⟨_, h⟩))
    · rw [if_neg hc]
      exact Or.inr (Or.inl ⟨_, rfl⟩)

/-- C15. With the clock within 6·10^15 ms of the epoch and a zone offset of
at most a day, for every message, agent and store, `processMessage` completes
with a string (no `RangeError`, whatever the reads return); when the payroll
read fails the string is the fixed payroll apology and when the orders read
fails it is the fixed customer apology, whatever the error is. -/
theorem every_path_yields_a_string (engine : Engine) (db : Database) (tza now : Int)
    (message : List Char) (agentId : Nat)
    (hz1 : -86400000 ≤ tza) (hz2 : tza ≤ 86400000)
    (h1 : -6000000000000000 ≤ now) (h2 : now ≤ 6000000000000000) :
    (∃ response, awaitOutcome engine db (processMessage tza now message agentId) =
      some response) ∧
    (∀ a start stop callback err,
      processMessage tza now message agentId = .payrollRead a start stop callback →
      engine.payrollSum db.payroll a start stop = .error err →
      awaitOutcome engine db (processMessage tza now message agentId) =
        some payrollErrorResponse) ∧
    (∀ pattern callback err,
      processMessage tza now message agentId = .ordersRead pattern callback →
      engine.findOrders db.orders pattern = .error err →
      awaitOutcome engine db (processMessage tza now message agentId) =
        some customerErrorResponse) ∧
    payrollErrorResponse =
      "Sorry, I encountered an error while fetching payroll information.".toList ∧
    customerErrorResponse =
      "Sorry, I encountered an error while fetching customer information.".toList := by
  have hne := resolvePeriod_ne_rangeError tza now (toLowerCase message) hz1 hz2 h1 h2
  have hc := processMessage_cases tza now message agentId
  refine ⟨?_, ?_, ?_, rfl, rfl⟩
  · apply awaitOutcome_isSome
    rcases hc with ⟨h, _⟩ | ⟨r, h⟩ | ⟨s, e, l, h⟩ | ⟨n, h⟩
    · exact absurd h hne
    · rw [h]; exact Outcome.noConfusion
    · rw [h]; exact Outcome.noConfusion
    · rw [h]; exact Outcome.noConfusion
  · intro a start stop callback err hp herr
    rcases hc with ⟨h, _⟩ | ⟨r, h⟩ | ⟨s, e, l, h⟩ | ⟨n, h⟩
    · exact absurd h hne
    · rw [h] at hp; exact Outcome.noConfusion hp
    · rw [h] at hp
      simp only [Outcome.payrollRead.injEq] at hp
      obtain ⟨ha, hs, he, hcb⟩ := hp
      subst ha hs he
      rw [h]
      simp only [awaitOutcome, herr]
      rfl
    · rw [h] at hp; exact Outcome.noConfusion hp
  · intro pattern callback err hp herr
    rcases hc with ⟨h, _⟩ | ⟨r, h⟩ | ⟨s, e, l, h⟩ | ⟨n, h⟩
    · exact absurd h hne
    · rw [h] at hp; exact Outcome.noConfusion hp
    · rw [h] at hp; exact Outcome.noConfusion hp
    · rw [h] at hp
      simp only [Outcome.ordersRead.injEq] at hp
      obtain ⟨hpat, hcb⟩ := hp
      subst hpat
      rw [h]
      simp only [awaitOutcome, herr]
      rfl

/-- C15, witness. On 2024-01-10 (UTC) with a store whose reads fail,
`payroll this week` gets the payroll apology and `orders for acme` the
customer apology; the text of the error is in neither. -/
theorem every_path_yields_a_string_witness :
    awaitOutcome ⟨fun _ _ _ _ => .error "SQLITE_ERROR: no such table: payroll".toList,
        fun _ _ => .error "SQLITE_BUSY".toList, fun rows row => .ok (rows ++ [row])⟩
      ⟨[], [], []⟩ (processMessage 0 1704888000000 "payroll this week".toList 7) =
      some "Sorry, I encountered an error while fetching payroll information.".toList ∧
    awaitOutcome ⟨fun _ _ _ _ => .error "SQLITE_ERROR: no such table: payroll".toList,
        fun _ _ => .error "SQLITE_BUSY".toList, fun rows row => .ok (rows ++ [row])⟩
      ⟨[], [], []⟩ (processMessage 0 1704888000000 "orders for acme".toList 7) =
      some "Sorry, I encountered an error while fetching customer information.".toList :=
  ⟨(every_path_yields_a_string
      ⟨fun _ _ _ _ => .error "SQLITE_ERROR: no such table: payroll".toList,
        fun _ _ => .error "SQLITE_BUSY".toList, fun rows row => .ok (rows ++ [row])⟩
      ⟨[], [], []⟩ 0 1704888000000 "payroll this week".toList 7
      (by decide) (by decide) (by decide) (by decide)).2.1
      7 "2024-01-07".toList "2024-01-13".toList
      (payrollCallback "This Week".toList "2024-01-07".toList "2024-01-13".toList)
      "SQLITE_ERROR: no such table: payroll".toList rfl rfl,
   (every_path_yields_a_string
      ⟨fun _ _ _ _ => .error "SQLITE_ERROR: no such table: payroll".toList,
        fun _ _ => .error "SQLITE_BUSY".toList, fun rows row => .ok (rows ++ [row])⟩
      ⟨[], [], []⟩ 0 1704888000000 "orders for acme".toList 7
      (by decide) (by decide) (by decide) (by decide)).2.2.1
      "%acme%".toList (ordersCallback "acme".toList) "SQLITE_BUSY".toList rfl rfl⟩

end AgentPortal
